import Mathlib

/-!
Verification development for the `usbdrive` tool: a shallow embedding of its
backend layer (ConfigFS / Sysfs / UDC mass-storage backends), backend selector,
CLI mount gate, mount-table lookup and image-path validation, together with
theorems settling the stated properties of the tool.

The kernel's virtual filesystem is modelled as explicit state (`FS`): an
association list of file contents keyed by component paths, a list of existing
directories, symbolic links, and per-path failure sets standing for the write /
mkdir / symlink operations the kernel may refuse.  `filepath.Join` on clean
components is modelled by appending path components; directory enumeration is
derived from the set of entries, so creating an entry makes it visible to later
enumerations, as in a real filesystem.  Go's `strings.TrimSpace` is modelled on
ASCII whitespace.
-/

/-- Whitespace recognizer modelling the characters `strings.TrimSpace` strips
for kernel attribute values (ASCII fragment of `unicode.IsSpace`). -/
def isWS (c : Char) : Bool :=
  c = ' ' || c = '\t' || c = '\n' || c = '\r' || c = '\x0b' || c = '\x0c'

/-- Strip leading whitespace from a character list. -/
def trimLeftL (l : List Char) : List Char := l.dropWhile isWS

/-- Strip trailing whitespace from a character list. -/
def trimRightL (l : List Char) : List Char := (l.reverse.dropWhile isWS).reverse

/-- Model of Go `strings.TrimSpace`. -/
def strTrim (s : String) : String := ⟨trimLeftL (trimRightL s.data)⟩

/-- Split a character list at every character satisfying `p` (model of
`strings.Split` for one-character separators); never returns `[]`. -/
def splitBy (p : Char → Bool) : List Char → List (List Char)
  | [] => [[]]
  | c :: rest =>
    match splitBy p rest with
    | [] => if p c then [[], []] else [[c]]
    | g :: gs => if p c then [] :: g :: gs else (c :: g) :: gs

/-- Split a string at every character satisfying `p`. -/
def splitStr (s : String) (p : Char → Bool) : List String :=
  (splitBy p s.data).map (fun l => ⟨l⟩)

/-- Model of Go `strings.HasPrefix`. -/
def strHasPre (s pre : String) : Bool := pre.data.isPrefixOf s.data

/-- A filesystem path as its list of components; `filepath.Join` with clean
components is `++`. -/
abbrev FPath := List String

/-- The components of a path string: split on `/`, dropping empty segments
(so both `"/a/b"` and `"a//b"` yield `["a", "b"]`). -/
def toPath (s : String) : FPath := (splitStr s (fun c => c = '/')).filter (fun c => c ≠ "")

/-- Resolve `..` and `.` segments of an absolute path's components, as
`filepath.Clean` does (a `..` at the root is dropped). -/
def cleanParts (l : List String) : List String :=
  (l.foldl (fun acc c =>
    if c = ".." then acc.dropLast
    else if c = "." ∨ c = "" then acc
    else acc ++ [c]) [])

/-- Association-list lookup keyed by decidable equality. -/
def alookup {κ α : Type} [DecidableEq κ] (k : κ) : List (κ × α) → Option α
  | [] => none
  | (k', v) :: rest => if k' = k then some v else alookup k rest

/-- Association-list update: replaces the value of an existing key in place,
appends a missing key at the end (so the key order of existing entries is
stable, as writes to existing kernel attribute files are). -/
def setVal {κ α : Type} [DecidableEq κ] (k : κ) (v : α) :
    List (κ × α) → List (κ × α)
  | [] => [(k, v)]
  | (k', v') :: rest => if k' = k then (k, v) :: rest else (k', v') :: setVal k v rest

/-- The kernel-filesystem state the backends act on. -/
structure FS where
  /-- Regular files: path, raw content (including any trailing newline). -/
  files : List (FPath × String)
  /-- Existing directories. -/
  dirs : List FPath
  /-- Symbolic links: link path, target path. -/
  symlinks : List (FPath × FPath)
  /-- Paths where a write is refused by the kernel. -/
  unwritable : List FPath
  /-- Paths where `os.MkdirAll` fails. -/
  mkdirFail : List FPath
  /-- Paths where `os.Symlink` fails. -/
  linkFail : List FPath
  deriving DecidableEq

/-- Go `fileExists`: stat succeeds and the path is not a directory. -/
def fileExists (fs : FS) (p : FPath) : Bool :=
  (alookup p fs.files).isSome && decide (p ∉ fs.dirs)

/-- Go `dirExists`: stat succeeds and the path is a directory. -/
def dirExists (fs : FS) (p : FPath) : Bool := decide (p ∈ fs.dirs)

/-- Go `pathExists`: stat succeeds (file, directory or symlink). -/
def pathExists (fs : FS) (p : FPath) : Bool :=
  (alookup p fs.files).isSome || decide (p ∈ fs.dirs) || (alookup p fs.symlinks).isSome

/-- Go `readFile`: read raw bytes and trim surrounding whitespace; `none` is
the error case (missing file or directory path). -/
def readFile (fs : FS) (p : FPath) : Option String :=
  if p ∈ fs.dirs then none else (alookup p fs.files).map strTrim

/-- Go `writeFile`: writes `content` plus exactly one trailing newline,
overwriting the whole file and creating it if missing; `none` is the error
case (the kernel refused the write, or the path is a directory). -/
def writeFile (fs : FS) (p : FPath) (content : String) : Option FS :=
  if p ∈ fs.unwritable ∨ p ∈ fs.dirs then none
  else some { fs with files := setVal p (content ++ "\n") fs.files }

/-- Every proper ancestor of a path, the path itself included
(`["a","b"]` yields `[["a"], ["a","b"]]`). -/
def ancestorsOf (p : FPath) : List FPath :=
  (List.range p.length).map (fun i => p.take (i + 1))

/-- Go `os.MkdirAll`: creates the directory and all missing ancestors;
new directories are appended after the existing ones. -/
def mkdirAll (fs : FS) (p : FPath) : Option FS :=
  if p ∈ fs.mkdirFail then none
  else some { fs with dirs := fs.dirs ++ (ancestorsOf p).filter (fun q => q ∉ fs.dirs) }

/-- Go `os.Symlink target link`. -/
def symlinkOp (fs : FS) (target link : FPath) : Option FS :=
  if link ∈ fs.linkFail then none
  else some { fs with symlinks := fs.symlinks ++ [(link, target)] }

/-- Every path that names an entry of the filesystem (file, directory or
symlink), in enumeration order. -/
def allEntryPaths (fs : FS) : List FPath :=
  fs.files.map Prod.fst ++ fs.dirs ++ fs.symlinks.map Prod.fst

/-- `childName d e = some n` exactly when `e` is the entry `d ++ [n]` directly
inside directory `d`. -/
def childName (d e : FPath) : Option String :=
  match e.drop d.length with
  | [x] => if e.take d.length = d then some x else none
  | _ => none

/-- Go `os.ReadDir`: fails when the directory does not exist, else lists the
names of the entries directly inside it. -/
def readDir (fs : FS) (d : FPath) : Option (List String) :=
  if d ∈ fs.dirs then some ((allEntryPaths fs).filterMap (childName d)) else none

/-- The path of `/proc/mounts`. -/
def mountsPath : FPath := ["proc", "mounts"]

/-- The whitespace-separated fields of one mount-table line
(Go `strings.Fields`). -/
def fieldsOf (line : String) : List String :=
  (splitStr line (fun c => c = ' ' || c = '\t')).filter (fun f => f ≠ "")

/-- The scan loop of Go `findMountPoint`: the second field of the first line
with at least three fields whose FIRST field equals `fsType`. -/
def scanMounts (fsType : String) : List String → Option String
  | [] => none
  | line :: rest =>
    match fieldsOf line with
    | a :: b :: _ :: _ => if a = fsType then some b else scanMounts fsType rest
    | _ => scanMounts fsType rest

/-- Go `findMountPoint`: scan `/proc/mounts`; for `configfs` only, fall back
to the two well-known Android paths when no line matched.  An unreadable
mounts file yields `""` without consulting the fallback, as in the source. -/
def findMountPoint (fs : FS) (fsType : String) : String :=
  match alookup mountsPath fs.files with
  | none => ""
  | some content =>
    match scanMounts fsType (splitStr content (fun c => c = '\n')) with
    | some mp => mp
    | none =>
      if fsType = "configfs" then
        if dirExists fs (toPath "/sys/kernel/config") then "/sys/kernel/config"
        else if dirExists fs (toPath "/config") then "/config"
        else ""
      else ""

/-- Go `MountOptions` (backend.go). -/
structure MountOptions where
  ReadWrite : Bool
  CDROM : Bool
  deriving DecidableEq

/-- Go `MountStatus` (backend.go); a `Status` query's read-only snapshot. -/
structure MountStatus where
  Mounted : Bool
  File : String
  ReadOnly : Bool
  CDROM : Bool
  deriving DecidableEq

/-- The not-mounted snapshot `&MountStatus{Mounted: false}` (zero values). -/
def notMountedStatus : MountStatus := ⟨false, "", false, false⟩

/-- Failure cases of `ConfigFSBackend.findGadgetRoot` (configfs.go). -/
inductive FGErr where
  /-- "configfs not mounted" -/
  | notMounted
  /-- "usb_gadget directory not found" -/
  | noGadgetDir
  /-- "read gadget dir" failed -/
  | readDirFailed
  /-- "no active gadget found" -/
  | noActiveGadget
  deriving DecidableEq

/-- Error sites of `ConfigFSBackend.Mount` / `Unmount` (configfs.go). -/
inductive MErr where
  | findGadget (e : FGErr)
  | findConfig
  | getUDC
  | disableUDC
  | createFunction
  | linkConfig
  | clearLun
  | setCdrom
  | setRo
  | writeImage
  | verifyMount
  | verifyUnmount
  deriving DecidableEq

/-- Results of the shared `verifyMount` / `verifyUnmount` readback protocol. -/
inductive VerifyErr where
  | readFailed
  | mismatch
  | notEmpty
  deriving DecidableEq

/-- Go `verifyMount` (util file): re-read the LUN file and require its trimmed
content to equal `expected`. -/
def verifyMountOp (fs : FS) (lf : FPath) (expected : String) : Option VerifyErr :=
  match readFile fs lf with
  | none => some .readFailed
  | some c => if c = expected then none else some .mismatch

/-- Go `verifyUnmount`: re-read the LUN file and require emptiness. -/
def verifyUnmountOp (fs : FS) (lf : FPath) : Option VerifyErr :=
  match readFile fs lf with
  | none => some .readFailed
  | some c => if c = "" then none else some .notEmpty

/-- The `UDC` binding attribute of a gadget. -/
def udcFile (g : FPath) : FPath := g ++ ["UDC"]

/-- `<gadget>/functions/mass_storage.0`. -/
def msRoot (g : FPath) : FPath := g ++ ["functions", "mass_storage.0"]

/-- `<gadget>/functions/mass_storage.0/lun.0`. -/
def lunRoot (g : FPath) : FPath := msRoot g ++ ["lun.0"]

/-- The ConfigFS LUN file `<gadget>/functions/mass_storage.0/lun.0/file`. -/
def lunFile (g : FPath) : FPath := lunRoot g ++ ["file"]

/-- The loop predicate of `findGadgetRoot`: a non-dotfile entry whose `UDC`
attribute reads back non-empty (a read error counts as empty). -/
def activeChild (fs : FS) (gd : FPath) (e : String) : Bool :=
  !(strHasPre e ".") && ((readFile fs (gd ++ [e, "UDC"])).getD "" ≠ "")

/-- `ConfigFSBackend.findGadgetRoot` (configfs.go, src/src variant): find the
configfs mount point, require `usb_gadget` to exist, and return the first
non-dotfile child whose `UDC` attribute is non-empty; no synthesis of a new
gadget happens in this variant. -/
def ConfigFSBackend.findGadgetRoot (fs : FS) : Except FGErr FPath :=
  let mp := findMountPoint fs "configfs"
  if mp = "" then .error .notMounted
  else
    let gd := toPath mp ++ ["usb_gadget"]
    if ¬ (gd ∈ fs.dirs) then .error .noGadgetDir
    else
      match readDir fs gd with
      | none => .error .readDirFailed
      | some entries =>
        match entries.find? (activeChild fs gd) with
        | some e => .ok (gd ++ [e])
        | none => .error .noActiveGadget

/-- `ConfigFSBackend.findConfigRoot`: the first non-dotfile entry of
`<gadget>/configs`. -/
def ConfigFSBackend.findConfigRoot (fs : FS) (g : FPath) : Except Unit FPath :=
  match readDir fs (g ++ ["configs"]) with
  | none => .error ()
  | some entries =>
    match entries.find? (fun e => !(strHasPre e ".")) with
    | some e => .ok (g ++ ["configs", e])
    | none => .error ()

/-- `ConfigFSBackend.getUDC`: read the binding attribute (trimmed). -/
def ConfigFSBackend.getUDC (fs : FS) (g : FPath) : Option String :=
  readFile fs (udcFile g)

/-- The deferred cleanup of `Mount`/`Unmount`: when the captured binding was
non-empty, re-write it to the `UDC` attribute, ignoring any write error. -/
def ConfigFSBackend.restore (fs : FS) (g : FPath) (udc : String) : FS :=
  if udc ≠ "" then (writeFile fs (udcFile g) udc).getD fs else fs

/-- The steps of `ConfigFSBackend.Mount` that run after the UDC was disabled
and the deferred restore was registered (configfs.go lines 56-116): ensure the
function directory, link it into the config, clear the LUN, set the `cdrom`
and `ro` flags, write the image path and verify the readback. -/
def ConfigFSBackend.mountBody (fs : FS) (g cfg : FPath) (imagePath : String)
    (opts : MountOptions) : Option MErr × FS :=
  match (if dirExists fs (msRoot g) then some fs else mkdirAll fs (msRoot g)) with
  | none => (some .createFunction, fs)
  | some fsA =>
    let link := cfg ++ ["mass_storage.0"]
    match (if pathExists fsA link then some fsA else symlinkOp fsA (msRoot g) link) with
    | none => (some .linkConfig, fsA)
    | some fsB =>
      match writeFile fsB (lunFile g) "" with
      | none => (some .clearLun, fsB)
      | some fsC =>
        match writeFile fsC (lunRoot g ++ ["cdrom"]) (if opts.CDROM then "1" else "0") with
        | none => (some .setCdrom, fsC)
        | some fsD =>
          match writeFile fsD (lunRoot g ++ ["ro"]) (if opts.ReadWrite then "0" else "1") with
          | none => (some .setRo, fsD)
          | some fsE =>
            match writeFile fsE (lunFile g) imagePath with
            | none => (some .writeImage, fsE)
            | some fsF =>
              match verifyMountOp fsF (lunFile g) imagePath with
              | some _ => (some .verifyMount, fsF)
              | none => (none, fsF)

/-- `ConfigFSBackend.Mount` (configfs.go): locate gadget and config, capture
the binding, disable the UDC, run the mount body, and in every case after the
disable succeeded run the deferred restore before returning. -/
def ConfigFSBackend.Mount (fs : FS) (imagePath : String) (opts : MountOptions) :
    Option MErr × FS :=
  match ConfigFSBackend.findGadgetRoot fs with
  | .error e => (some (.findGadget e), fs)
  | .ok g =>
    match ConfigFSBackend.findConfigRoot fs g with
    | .error _ => (some .findConfig, fs)
    | .ok cfg =>
      match ConfigFSBackend.getUDC fs g with
      | none => (some .getUDC, fs)
      | some udc =>
        match writeFile fs (udcFile g) "" with
        | none => (some .disableUDC, fs)
        | some fs1 =>
          let r := ConfigFSBackend.mountBody fs1 g cfg imagePath opts
          (r.1, ConfigFSBackend.restore r.2 g udc)

/-- The steps of `ConfigFSBackend.Unmount` after the disable: clear the LUN
file and verify emptiness. -/
def ConfigFSBackend.unmountBody (fs : FS) (g : FPath) : Option MErr × FS :=
  match writeFile fs (lunFile g) "" with
  | none => (some .clearLun, fs)
  | some fs2 =>
    match verifyUnmountOp fs2 (lunFile g) with
    | some _ => (some .verifyUnmount, fs2)
    | none => (none, fs2)

/-- `ConfigFSBackend.Unmount` (configfs.go): capture and clear the binding,
clear the LUN file, verify, restore the binding on every exit path. -/
def ConfigFSBackend.Unmount (fs : FS) : Option MErr × FS :=
  match ConfigFSBackend.findGadgetRoot fs with
  | .error e => (some (.findGadget e), fs)
  | .ok g =>
    match ConfigFSBackend.getUDC fs g with
    | none => (some .getUDC, fs)
    | some udc =>
      match writeFile fs (udcFile g) "" with
      | none => (some .disableUDC, fs)
      | some fs1 =>
        let r := ConfigFSBackend.unmountBody fs1 g
        (r.1, ConfigFSBackend.restore r.2 g udc)

/-- `ConfigFSBackend.Status` (configfs.go): every failure collapses to
not-mounted; mounted exactly when the LUN file reads back non-empty. -/
def ConfigFSBackend.Status (fs : FS) : MountStatus :=
  match ConfigFSBackend.findGadgetRoot fs with
  | .error _ => notMountedStatus
  | .ok g =>
    if ¬ dirExists fs (msRoot g) then notMountedStatus
    else
      match readFile fs (lunFile g) with
      | none => notMountedStatus
      | some file =>
        if file = "" then notMountedStatus
        else
          { Mounted := true, File := file,
            ReadOnly := ((readFile fs (lunRoot g ++ ["ro"])).getD "" = "1"),
            CDROM := ((readFile fs (lunRoot g ++ ["cdrom"])).getD "" = "1") }

/-- `ConfigFSBackend.Supported` (configfs.go). -/
def ConfigFSBackend.Supported (fs : FS) : Bool :=
  let mp := findMountPoint fs "configfs"
  if mp = "" then false else dirExists fs (toPath mp ++ ["usb_gadget"])

/-- `/sys/devices/virtual/android_usb/android0/enable` (sysfs backend). -/
def sysfsEnable : FPath := ["sys", "devices", "virtual", "android_usb", "android0", "enable"]

/-- `/sys/devices/virtual/android_usb/android0/f_mass_storage/lun/file`. -/
def sysfsFile : FPath :=
  ["sys", "devices", "virtual", "android_usb", "android0", "f_mass_storage", "lun", "file"]

/-- `/sys/devices/virtual/android_usb/android0/functions`. -/
def sysfsFeatures : FPath := ["sys", "devices", "virtual", "android_usb", "android0", "functions"]

/-- Error sites of the sysfs backend's operations (part_005 sysfs file). -/
inductive SErr where
  | disableUSB
  | setImage
  | setFunction
  | enableUSB
  | clearImage
  | resetMTP
  deriving DecidableEq

/-- `SysfsBackend.setEnabled`. -/
def SysfsBackend.setEnabled (fs : FS) (enabled : Bool) : Option FS :=
  writeFile fs sysfsEnable (if enabled then "1" else "0")

/-- `SysfsBackend.Supported`. -/
def SysfsBackend.Supported (fs : FS) : Bool := fileExists fs sysfsEnable

/-- `SysfsBackend.Mount`: disable, write the image path, select the
`mass_storage` function, re-enable.  The CD-ROM / read-write options only
produce warnings and are otherwise ignored; there is no readback
verification in this backend. -/
def SysfsBackend.Mount (fs : FS) (isoPath : String) (_opts : MountOptions) :
    Option SErr × FS :=
  match SysfsBackend.setEnabled fs false with
  | none => (some .disableUSB, fs)
  | some fs1 =>
    match writeFile fs1 sysfsFile isoPath with
    | none => (some .setImage, fs1)
    | some fs2 =>
      match writeFile fs2 sysfsFeatures "mass_storage" with
      | none => (some .setFunction, fs2)
      | some fs3 =>
        match SysfsBackend.setEnabled fs3 true with
        | none => (some .enableUSB, fs3)
        | some fs4 => (none, fs4)

/-- `SysfsBackend.Unmount`: disable, clear the LUN, reset the function list
to `mtp`, re-enable. -/
def SysfsBackend.Unmount (fs : FS) : Option SErr × FS :=
  match SysfsBackend.setEnabled fs false with
  | none => (some .disableUSB, fs)
  | some fs1 =>
    match writeFile fs1 sysfsFile "" with
    | none => (some .clearImage, fs1)
    | some fs2 =>
      match writeFile fs2 sysfsFeatures "mtp" with
      | none => (some .resetMTP, fs2)
      | some fs3 =>
        match SysfsBackend.setEnabled fs3 true with
        | none => (some .enableUSB, fs3)
        | some fs4 => (none, fs4)

/-- `SysfsBackend.Status`: mounted exactly when the fixed LUN file reads back
non-empty; always reported read-only, never CD-ROM. -/
def SysfsBackend.Status (fs : FS) : MountStatus :=
  match readFile fs sysfsFile with
  | none => notMountedStatus
  | some file =>
    if file = "" then notMountedStatus
    else { Mounted := true, File := file, ReadOnly := true, CDROM := false }

/-- `/sys/class/udc`. -/
def udcDir : FPath := ["sys", "class", "udc"]

/-- The per-controller LUN file `/sys/class/udc/<e>/device/gadget/lun0/file`. -/
def udcLunOf (e : String) : FPath := udcDir ++ [e, "device", "gadget", "lun0", "file"]

/-- Error sites of the UDC backend's operations (udc.go). -/
inductive UErr where
  | findLun
  | clearLun
  | writeImage
  | verifyRead
  | verifyMismatch
  | verifyNotEmpty
  deriving DecidableEq

/-- `UDCBackend.findLunFile` (udc.go): the first `/sys/class/udc` entry whose
`device/gadget/lun0/file` exists. -/
def UDCBackend.findLunFile (fs : FS) : Except Unit FPath :=
  match readDir fs udcDir with
  | none => .error ()
  | some entries =>
    match entries.find? (fun e => fileExists fs (udcLunOf e)) with
    | some e => .ok (udcLunOf e)
    | none => .error ()

/-- `UDCBackend.Supported` (udc.go). -/
def UDCBackend.Supported (fs : FS) : Bool :=
  if ¬ dirExists fs udcDir then false
  else
    match readDir fs udcDir with
    | none => false
    | some entries => entries.any (fun e => fileExists fs (udcLunOf e))

/-- `UDCBackend.Mount` (udc.go): clear the LUN file, write the image path,
verify by an inline readback; the CD-ROM option only logs a warning. -/
def UDCBackend.Mount (fs : FS) (imagePath : String) (_opts : MountOptions) :
    Option UErr × FS :=
  match UDCBackend.findLunFile fs with
  | .error _ => (some .findLun, fs)
  | .ok lf =>
    match writeFile fs lf "" with
    | none => (some .clearLun, fs)
    | some fs1 =>
      match writeFile fs1 lf imagePath with
      | none => (some .writeImage, fs1)
      | some fs2 =>
        match readFile fs2 lf with
        | none => (some .verifyRead, fs2)
        | some mountedPath =>
          if mountedPath ≠ imagePath then (some .verifyMismatch, fs2)
          else (none, fs2)

/-- `UDCBackend.Unmount` (udc.go): clear the LUN file and verify emptiness. -/
def UDCBackend.Unmount (fs : FS) : Option UErr × FS :=
  match UDCBackend.findLunFile fs with
  | .error _ => (some .findLun, fs)
  | .ok lf =>
    match writeFile fs lf "" with
    | none => (some .clearLun, fs)
    | some fs1 =>
      match readFile fs1 lf with
      | none => (some .verifyRead, fs1)
      | some content =>
        if content ≠ "" then (some .verifyNotEmpty, fs1)
        else (none, fs1)

/-- `UDCBackend.Status` (udc.go): mounted exactly when a LUN file is found and
reads back non-empty; always reported read-write, never CD-ROM. -/
def UDCBackend.Status (fs : FS) : MountStatus :=
  match UDCBackend.findLunFile fs with
  | .error _ => notMountedStatus
  | .ok lf =>
    match readFile fs lf with
    | none => notMountedStatus
    | some file =>
      if file = "" then notMountedStatus
      else { Mounted := true, File := file, ReadOnly := false, CDROM := false }

/-- The three candidate backends of `selectBackend` (main.go line 303), in
its fixed order. -/
inductive BackendId where
  | configfs
  | udc
  | sysfs
  deriving DecidableEq

/-- `Name()` of each candidate backend. -/
def backendName : BackendId → String
  | .configfs => "configfs"
  | .udc => "udc"
  | .sysfs => "sysfs"

/-- `Supported()` of each candidate backend. -/
def backendSupported (fs : FS) : BackendId → Bool
  | .configfs => ConfigFSBackend.Supported fs
  | .udc => UDCBackend.Supported fs
  | .sysfs => SysfsBackend.Supported fs

/-- The candidate list `[]Backend{&ConfigFSBackend{}, &UDCBackend{}, &SysfsBackend{}}`. -/
def backendList : List BackendId := [.configfs, .udc, .sysfs]

/-- Failure cases of `selectBackend` (main.go). -/
inductive SelErr where
  /-- "backend '<name>' is not supported on this device" -/
  | notSupportedOn (name : String)
  /-- "unknown backend '<name>'" -/
  | unknownBackend (name : String)
  /-- "no supported USB gadget backend found" -/
  | noBackendFound
  deriving DecidableEq

/-- `selectBackend` (main.go lines 302-324): resolve a forced name or pick the
first supported candidate in the fixed order. -/
def selectBackend (fs : FS) (force : String) : Except SelErr BackendId :=
  if force ≠ "" then
    match backendList.find? (fun b => backendName b = force) with
    | some b =>
      if backendSupported fs b then .ok b else .error (.notSupportedOn force)
    | none => .error (.unknownBackend force)
  else
    match backendList.find? (fun b => backendSupported fs b) with
    | some b => .ok b
    | none => .error .noBackendFound

/-- The backend-name validation of `loadConfig` (part_006 config file, line
47): an absent name or one of `configfs`, `sysfs`, `legacy` passes. -/
def validBackendName (s : String) : Bool :=
  s = "" || s = "configfs" || s = "sysfs" || s = "legacy"

/-- Failure cases of the pre-backend checks of the CLI `mount` command. -/
inductive CliErr where
  /-- "cannot use -cdrom with -rw (CDROM devices are always read-only)" -/
  | cdromWithRw
  /-- "cannot use -ro with -rw (conflicting flags)" -/
  | roWithRw
  deriving DecidableEq

/-- The flag resolution of the CLI `mount` command's non-config path
(main.go lines 100-107): read-write is false under `--ro`, true under `--rw`,
and defaults to true when neither is given. -/
def resolveReadWrite (ro rw : Bool) : Bool :=
  if ro then false else if rw then true else true

/-- The pre-backend checks of the CLI `mount` command's non-config path
(main.go lines 100-119): resolve the flags, then run the two conflict checks;
both run before any image validation or backend selection. -/
def mountCmdGate (ro rw cdrom : Bool) : Except CliErr (Bool × Bool) :=
  let readWrite := resolveReadWrite ro rw
  let useCDROM := cdrom
  if useCDROM && readWrite then .error .cdromWithRw
  else if ro && rw then .error .roWithRw
  else .ok (readWrite, useCDROM)

/-- Error sites of the part_003 variant of `findGadgetRoot`, which creates a
gadget when none is active. -/
inductive AErr where
  | notMounted
  | createGadgetDir
  | readDirFailed
  | createGadget
  | setIdVendor
  | setIdProduct
  | createStringsDir
  | setSerial
  | setManufacturer
  | setProduct
  | createConfigDir
  | createConfigStringsDir
  | setConfiguration
  deriving DecidableEq

/-- The UDC-binding loop of the part_003 `findGadgetRoot`: try each
non-dotfile entry in enumeration order and stop at the first whose name the
`UDC` attribute accepts; failures are ignored. -/
def bindFirstUDC (fs : FS) (g : FPath) : List String → FS
  | [] => fs
  | n :: rest =>
    if strHasPre n "." then bindFirstUDC fs g rest
    else
      match writeFile fs (udcFile g) n with
      | some fs' => fs'
      | none => bindFirstUDC fs g rest

/-- The gadget-synthesis block of the part_003 `findGadgetRoot` (lines
237-291): create `g1`, set vendor/product IDs, the strings subtree, the
default config and its configuration string, then bind the first available
UDC entry of `<mountPoint>/../devices`; a missing or empty device list is not
an error. -/
def createGadgetG1 (fs : FS) (mp : String) (g1 : FPath) : Except AErr FS :=
  match mkdirAll fs g1 with
  | none => .error .createGadget
  | some fsA =>
    match writeFile fsA (g1 ++ ["idVendor"]) "0x18d1" with
    | none => .error .setIdVendor
    | some fsB =>
      match writeFile fsB (g1 ++ ["idProduct"]) "0x4e26" with
      | none => .error .setIdProduct
      | some fsC =>
        match mkdirAll fsC (g1 ++ ["strings", "0x409"]) with
        | none => .error .createStringsDir
        | some fsD =>
          match writeFile fsD (g1 ++ ["strings", "0x409", "serialnumber"]) "123456" with
          | none => .error .setSerial
          | some fsE =>
            match writeFile fsE (g1 ++ ["strings", "0x409", "manufacturer"]) "Android" with
            | none => .error .setManufacturer
            | some fsF =>
              match writeFile fsF (g1 ++ ["strings", "0x409", "product"]) "USB Drive" with
              | none => .error .setProduct
              | some fsG =>
                match mkdirAll fsG (g1 ++ ["configs", "c.1"]) with
                | none => .error .createConfigDir
                | some fsH =>
                  match mkdirAll fsH (g1 ++ ["configs", "c.1", "strings", "0x409"]) with
                  | none => .error .createConfigStringsDir
                  | some fsI =>
                    match writeFile fsI
                        (g1 ++ ["configs", "c.1", "strings", "0x409", "configuration"])
                        "Config 1" with
                    | none => .error .setConfiguration
                    | some fsJ =>
                      match readDir fsJ (cleanParts (toPath mp ++ ["..", "devices"])) with
                      | none => .ok fsJ
                      | some udcList => .ok (bindFirstUDC fsJ g1 udcList)

/-- The part_003 variant of `ConfigFSBackend.findGadgetRoot`: creates the
`usb_gadget` directory when missing, returns the first active gadget when one
exists, and otherwise synthesizes the gadget `g1` instead of failing; it also
returns the possibly mutated filesystem. -/
def ConfigFSBackend.findGadgetRootAlt (fs : FS) : Except AErr (FPath × FS) :=
  let mp := findMountPoint fs "configfs"
  if mp = "" then .error .notMounted
  else
    let gd := toPath mp ++ ["usb_gadget"]
    match (if dirExists fs gd then some fs else mkdirAll fs gd) with
    | none => .error .createGadgetDir
    | some fs0 =>
      match readDir fs0 gd with
      | none => .error .readDirFailed
      | some entries =>
        match entries.find? (activeChild fs0 gd) with
        | some e => .ok (gd ++ [e], fs0)
        | none =>
          let g1 := gd ++ ["g1"]
          if dirExists fs0 g1 then .ok (g1, fs0)
          else
            match createGadgetG1 fs0 mp g1 with
            | .error e => .error e
            | .ok fs1 => .ok (g1, fs1)

/-- The filesystem view the image-path validation acts on: raw string paths
(`validateSafePath`'s deny list is a raw string-prefix match), file sizes for
`os.Stat`, symlink targets for `os.Readlink`, and unreadable paths for
`os.Open`. -/
structure VFS where
  /-- Regular files: absolute path, size in bytes. -/
  files : List (String × Nat)
  /-- Existing directories. -/
  dirs : List String
  /-- Symbolic links: link path, target (absolute or relative). -/
  symlinks : List (String × String)
  /-- Paths `os.Open` refuses to open for reading. -/
  unreadable : List String
  deriving DecidableEq

/-- Render cleaned components back into an absolute path string. -/
def strOfParts (l : List String) : String := "/" ++ String.intercalate "/" l

/-- Model of `filepath.Clean` on an absolute path string. -/
def cleanStr (s : String) : String := strOfParts (cleanParts (toPath s))

/-- Model of `filepath.Abs`: clean an absolute path, anchor a relative one at
the working directory. -/
def absOf (cwd p : String) : String :=
  if strHasPre p "/" then cleanStr p else cleanStr (cwd ++ "/" ++ p)

/-- Model of `filepath.Dir` on an absolute path string. -/
def dirOf (p : String) : String := strOfParts ((cleanParts (toPath p)).dropLast)

/-- The deny list of `validateSafePath`, in source order. -/
def dangerousList : List String :=
  ["/system", "/sys", "/proc", "/dev",
   "/etc", "/bin", "/sbin", "/boot",
   "/root", "/data/system", "/data/data"]

/-- `validateSafePath` (part_005 util file), with an explicit recursion budget
`n` standing for the unbounded recursion of the source: `none` means the
budget was exhausted (the source would still be recursing), `some none` means
the path was accepted, `some (some d)` means it was rejected for lying under
the deny-list entry `d`.  A symlink's target is resolved with `Readlink`
(which never follows the link itself) and re-validated recursively; the
source has no depth cap. -/
def validateSafePathF (vfs : VFS) : Nat → String → Option (Option String)
  | 0, _ => none
  | n + 1, path =>
    match dangerousList.find? (fun d => strHasPre path d) with
    | some d => some (some d)
    | none =>
      match alookup path vfs.symlinks with
      | some tgt =>
        if strHasPre tgt "/" then validateSafePathF vfs n tgt
        else validateSafePathF vfs n (cleanStr (dirOf path ++ "/" ++ tgt))
      | none => some none

/-- Failure cases of `validateImage` (part_005). -/
inductive VErr where
  /-- "cannot mount files from system directory: `d`" -/
  | dangerous (d : String)
  /-- "file does not exist" -/
  | notExist
  /-- "path is a directory" -/
  | isDir
  /-- "file is empty" -/
  | emptyFile
  /-- "file not readable" -/
  | notReadable
  deriving DecidableEq

/-- Model of `os.Stat` on the validation view: `(isDir, size)`. -/
def statV (vfs : VFS) (p : String) : Option (Bool × Nat) :=
  if p ∈ vfs.dirs then some (true, 0)
  else (alookup p vfs.files).map (fun sz => (false, sz))

/-- `validateImage` (part_005): make the path absolute, run the deny-list and
symlink validation, then require the target to exist, not be a directory, be
non-empty and be openable for read; `none` is exhaustion of the symlink
recursion budget. -/
def validateImage (vfs : VFS) (n : Nat) (cwd p : String) :
    Option (Except VErr Unit) :=
  let absPath := absOf cwd p
  match validateSafePathF vfs n absPath with
  | none => none
  | some (some d) => some (.error (.dangerous d))
  | some none =>
    match statV vfs absPath with
    | none => some (.error .notExist)
    | some (isDir, size) =>
      if isDir then some (.error .isDir)
      else if size = 0 then some (.error .emptyFile)
      else if absPath ∈ vfs.unreadable then some (.error .notReadable)
      else some (.ok ())

/-! ### Elementary lemmas about trimming, splitting and association lists -/

theorem dropWhile_self_idem {α : Type} (p : α → Bool) (l : List α) :
    (l.dropWhile p).dropWhile p = l.dropWhile p := by
  induction l with
  | nil => simp
  | cons c t ih =>
    rw [List.dropWhile_cons]
    by_cases h : p c
    · rw [if_pos h]; exact ih
    · rw [if_neg h, List.dropWhile_cons, if_neg h]

theorem dropWhile_length_le {α : Type} (p : α → Bool) (l : List α) :
    (l.dropWhile p).length ≤ l.length := by
  induction l with
  | nil => simp
  | cons c t ih =>
    rw [List.dropWhile_cons]
    by_cases h : p c
    · rw [if_pos h]; exact Nat.le_succ_of_le ih
    · rw [if_neg h]

theorem trimRightL_idem (l : List Char) : trimRightL (trimRightL l) = trimRightL l := by
  unfold trimRightL
  rw [List.reverse_reverse, dropWhile_self_idem]

theorem trimLeftL_idem (l : List Char) : trimLeftL (trimLeftL l) = trimLeftL l :=
  dropWhile_self_idem isWS l

theorem trimRightL_of_trimLeftL {x : List Char} (h : trimRightL x = x) :
    trimRightL (trimLeftL x) = trimLeftL x := by
  have hx : x.reverse.dropWhile isWS = x.reverse := by
    have := congrArg List.reverse h
    rwa [trimRightL, List.reverse_reverse] at this
  have hsplit : x.takeWhile isWS ++ x.dropWhile isWS = x := List.takeWhile_append_dropWhile isWS x
  set a := x.takeWhile isWS with ha
  set b := x.dropWhile isWS with hb
  have hrev : x.reverse = b.reverse ++ a.reverse := by
    rw [← hsplit, List.reverse_append]
  rw [hrev, List.dropWhile_append] at hx
  unfold trimLeftL
  rw [← hb]
  by_cases hemp : (b.reverse.dropWhile isWS).isEmpty
  · rw [if_pos hemp] at hx
    have hlen := congrArg List.length hx
    have h1 : (a.reverse.dropWhile isWS).length ≤ a.reverse.length := dropWhile_length_le _ _
    simp only [List.length_append] at hlen
    have hb0 : b.reverse.length = 0 := by omega
    have hbrev : b.reverse = [] := List.eq_nil_of_length_eq_zero hb0
    have hbnil : b = [] := by
      have := congrArg List.reverse hbrev
      rwa [List.reverse_reverse, List.reverse_nil] at this
    rw [hbnil]
    rfl
  · rw [if_neg hemp] at hx
    have hd := List.append_cancel_right hx
    unfold trimRightL
    rw [hd, List.reverse_reverse]

theorem strTrim_idem (s : String) : strTrim (strTrim s) = strTrim s := by
  have h1 : trimRightL (trimRightL s.data) = trimRightL s.data := trimRightL_idem s.data
  have h2 : trimRightL (trimLeftL (trimRightL s.data)) = trimLeftL (trimRightL s.data) :=
    trimRightL_of_trimLeftL h1
  show String.mk (trimLeftL (trimRightL (trimLeftL (trimRightL s.data)))) = _
  rw [h2, trimLeftL_idem]
  rfl

theorem trimRightL_append_ws {l : List Char} {c : Char} (h : isWS c = true) :
    trimRightL (l ++ [c]) = trimRightL l := by
  unfold trimRightL
  rw [List.reverse_append]
  simp [List.dropWhile_cons, h]

theorem strTrim_append_newline (s : String) : strTrim (s ++ "\n") = strTrim s := by
  unfold strTrim
  have hdata : (s ++ "\n").data = s.data ++ ['\n'] := String.data_append s "\n"
  rw [hdata, trimRightL_append_ws (by rfl)]

theorem strTrim_self_append_newline {s : String} (h : strTrim s = s) :
    strTrim (s ++ "\n") = s := by
  rw [strTrim_append_newline, h]

theorem readFile_trimmed {fs : FS} {p : FPath} {v : String}
    (h : readFile fs p = some v) : strTrim v = v := by
  unfold readFile at h
  split at h
  · exact absurd h (by simp)
  · match hl : alookup p fs.files with
    | none => rw [hl] at h; exact absurd h (by simp)
    | some c =>
      rw [hl] at h
      have hv : strTrim c = v := by
        simpa using h
      rw [← hv]
      exact strTrim_idem c

theorem alookup_setVal_self {κ α : Type} [DecidableEq κ] (k : κ) (v : α)
    (m : List (κ × α)) : alookup k (setVal k v m) = some v := by
  induction m with
  | nil => simp [setVal, alookup]
  | cons hd t ih =>
    obtain ⟨k', v'⟩ := hd
    by_cases hk : k' = k
    · simp [setVal, hk, alookup]
    · simp [setVal, hk, alookup, ih]

theorem alookup_setVal_ne {κ α : Type} [DecidableEq κ] {q k : κ} (h : q ≠ k) (v : α)
    (m : List (κ × α)) : alookup q (setVal k v m) = alookup q m := by
  have hkq : k ≠ q := fun hh => h hh.symm
  induction m with
  | nil =>
    simp only [setVal, alookup]
    rw [if_neg hkq]
  | cons hd t ih =>
    obtain ⟨k', v'⟩ := hd
    by_cases hk : k' = k
    · subst hk
      simp only [setVal, if_pos rfl, alookup]
      rw [if_neg hkq, if_neg hkq]
    · simp only [setVal, if_neg hk, alookup]
      by_cases hq : k' = q
      · rw [if_pos hq, if_pos hq]
      · rw [if_neg hq, if_neg hq, ih]

theorem setVal_keys_of_mem {κ α : Type} [DecidableEq κ] {k : κ} {m : List (κ × α)}
    (h : k ∈ m.map Prod.fst) (v : α) :
    (setVal k v m).map Prod.fst = m.map Prod.fst := by
  induction m with
  | nil => simp at h
  | cons hd t ih =>
    obtain ⟨k', v'⟩ := hd
    by_cases hk : k' = k
    · simp [setVal, hk]
    · simp only [List.map_cons] at h
      have hkt : k ∈ t.map Prod.fst := by
        rcases List.mem_cons.mp h with hh | hh
        · exact absurd hh.symm hk
        · exact hh
      simp [setVal, hk, ih hkt]

theorem setVal_keys_of_not_mem {κ α : Type} [DecidableEq κ] {k : κ} {m : List (κ × α)}
    (h : k ∉ m.map Prod.fst) (v : α) :
    (setVal k v m).map Prod.fst = m.map Prod.fst ++ [k] := by
  induction m with
  | nil => simp [setVal]
  | cons hd t ih =>
    obtain ⟨k', v'⟩ := hd
    simp only [List.map_cons, List.mem_cons] at h
    push_neg at h
    have hk' : k' ≠ k := fun hh => h.1 hh.symm
    simp [setVal, hk', ih h.2]

theorem alookup_isSome_iff_mem {κ α : Type} [DecidableEq κ] (k : κ) (m : List (κ × α)) :
    (alookup k m).isSome = true ↔ k ∈ m.map Prod.fst := by
  induction m with
  | nil => simp [alookup]
  | cons hd t ih =>
    obtain ⟨k', v'⟩ := hd
    by_cases hk : k' = k
    · simp [alookup, hk]
    · simp only [alookup, if_neg hk, List.map_cons, List.mem_cons, ih]
      constructor
      · intro h; exact Or.inr h
      · rintro (h | h)
        · exact absurd h.symm hk
        · exact h

/-! ### Inversion and frame lemmas for the filesystem operations -/

theorem writeFile_some_iff {fs fs' : FS} {p : FPath} {c : String} :
    writeFile fs p c = some fs' ↔
      (p ∉ fs.unwritable ∧ p ∉ fs.dirs) ∧
        fs' = { fs with files := setVal p (c ++ "\n") fs.files } := by
  unfold writeFile
  by_cases h : p ∈ fs.unwritable ∨ p ∈ fs.dirs
  · simp only [if_pos h]
    constructor
    · intro hh; exact absurd hh (by simp)
    · rintro ⟨⟨h1, h2⟩, -⟩
      rcases h with h | h
      · exact absurd h h1
      · exact absurd h h2
  · simp only [if_neg h]
    push_neg at h
    constructor
    · intro hh
      exact ⟨h, ((Option.some.injEq _ _).mp hh).symm⟩
    · rintro ⟨-, rfl⟩
      rfl

theorem mkdirAll_some_iff {fs fs' : FS} {p : FPath} :
    mkdirAll fs p = some fs' ↔
      p ∉ fs.mkdirFail ∧
        fs' = { fs with dirs := fs.dirs ++ (ancestorsOf p).filter (fun q => q ∉ fs.dirs) } := by
  unfold mkdirAll
  by_cases h : p ∈ fs.mkdirFail
  · simp [h]
  · simp [h, eq_comm]

theorem symlinkOp_some_iff {fs fs' : FS} {target link : FPath} :
    symlinkOp fs target link = some fs' ↔
      link ∉ fs.linkFail ∧ fs' = { fs with symlinks := fs.symlinks ++ [(link, target)] } := by
  unfold symlinkOp
  by_cases h : link ∈ fs.linkFail
  · simp [h]
  · simp [h, eq_comm]

theorem readFile_eq_of_lookup {fs : FS} {p : FPath} {c : String}
    (hd : p ∉ fs.dirs) (hl : alookup p fs.files = some c) :
    readFile fs p = some (strTrim c) := by
  unfold readFile
  rw [if_neg hd, hl]
  rfl

/-! ### Path component lemmas -/

theorem childName_of_append_single (d : FPath) (x : String) :
    childName d (d ++ [x]) = some x := by
  unfold childName
  rw [List.drop_left, List.take_left]
  simp

theorem childName_eq_some_iff {d q : FPath} {x : String} :
    childName d q = some x ↔ q = d ++ [x] := by
  constructor
  · intro h
    unfold childName at h
    split at h
    next heq =>
      split at h
      next htake =>
        have := List.take_append_drop d.length q
        rw [htake, heq] at this
        cases h
        exact this.symm
      · exact absurd h (by simp)
    · exact absurd h (by simp)
  · intro h
    rw [h]
    exact childName_of_append_single d x

theorem childName_len {d q : FPath} {x : String} (h : childName d q = some x) :
    q.length = d.length + 1 := by
  rw [childName_eq_some_iff.mp h]
  simp

theorem mem_ancestorsOf_iff {q X : FPath} :
    q ∈ ancestorsOf X ↔ 1 ≤ q.length ∧ q.length ≤ X.length ∧ q = X.take q.length := by
  unfold ancestorsOf
  simp only [List.mem_map, List.mem_range]
  constructor
  · rintro ⟨i, hi, rfl⟩
    have hlen : (X.take (i + 1)).length = i + 1 := by
      rw [List.length_take]
      omega
    refine ⟨by omega, by omega, ?_⟩
    rw [hlen]
  · rintro ⟨h1, h2, hq⟩
    refine ⟨q.length - 1, by omega, ?_⟩
    have hlen : q.length - 1 + 1 = q.length := by omega
    rw [hlen, ← hq]

theorem head?_of_mem_ancestorsOf {q X : FPath} (h : q ∈ ancestorsOf X) :
    q.head? = X.head? := by
  obtain ⟨h1, h2, hq⟩ := mem_ancestorsOf_iff.mp h
  rw [hq]
  cases X with
  | nil =>
    rw [List.length_nil] at h2
    omega
  | cons a t =>
    have : q.length = q.length - 1 + 1 := by omega
    rw [this, List.take_succ_cons]
    rfl

/-! ### `find?` helpers -/

theorem find?_congr_on {α : Type} {p q : α → Bool} {l : List α}
    (h : ∀ x ∈ l, p x = q x) : l.find? p = l.find? q := by
  induction l with
  | nil => rfl
  | cons a t ih =>
    have ha := h a (List.mem_cons_self a t)
    by_cases hp : p a
    · rw [List.find?_cons_of_pos t hp, List.find?_cons_of_pos t (ha ▸ hp)]
    · rw [List.find?_cons_of_neg t hp, List.find?_cons_of_neg t (by rw [← ha]; exact hp)]
      exact ih (fun x hx => h x (List.mem_cons_of_mem a hx))

theorem find?_insert_mid {α : Type} {p : α → Bool} {A B C N : List α} {e : α}
    (h : (A ++ (B ++ C)).find? p = some e) (hN : ∀ x ∈ N, x = e) :
    (A ++ ((B ++ N) ++ C)).find? p = some e := by
  rw [List.find?_append] at h
  rw [List.find?_append]
  cases hA : A.find? p with
  | some a =>
    rw [hA] at h
    exact h
  | none =>
    rw [hA] at h
    simp only [Option.none_or] at h ⊢
    rw [List.find?_append] at h
    rw [List.find?_append, List.find?_append]
    cases hB : B.find? p with
    | some b =>
      rw [hB] at h
      exact h
    | none =>
      rw [hB] at h
      simp only [Option.none_or] at h ⊢
      cases hNf : N.find? p with
      | none => simpa using h
      | some n =>
        have hne : n = e := hN n (List.mem_of_find?_eq_some hNf)
        simp [hne]

theorem childName_none_of_len {d q : FPath} (h : q.length ≠ d.length + 1) :
    childName d q = none := by
  cases hc : childName d q with
  | none => rfl
  | some x => exact absurd (childName_len hc) h

/-! ### Inversion of `findGadgetRoot` and stability of directory enumeration -/

theorem ConfigFS_fgr_inv {fs : FS} {g : FPath}
    (h : ConfigFSBackend.findGadgetRoot fs = .ok g) :
    ∃ mp e entries,
      findMountPoint fs "configfs" = mp ∧ mp ≠ "" ∧
      (toPath mp ++ ["usb_gadget"]) ∈ fs.dirs ∧
      readDir fs (toPath mp ++ ["usb_gadget"]) = some entries ∧
      entries.find? (activeChild fs (toPath mp ++ ["usb_gadget"])) = some e ∧
      g = toPath mp ++ ["usb_gadget"] ++ [e] := by
  unfold ConfigFSBackend.findGadgetRoot at h
  simp only [] at h
  split at h
  next hmp => exact absurd h (by simp)
  next hmp =>
    split at h
    next hgd => exact absurd h (by simp)
    next hgd =>
      split at h
      next hrd => exact absurd h (by simp)
      next entries hrd =>
        split at h
        next e hf =>
          refine ⟨findMountPoint fs "configfs", e, entries, rfl, hmp, by simpa using hgd,
            hrd, hf, ?_⟩
          cases h
          rfl
        next hf => exact absurd h (by simp)

theorem ConfigFS_fgr_intro {fs : FS} {mp : String} {e : String} {entries : List String}
    (h1 : findMountPoint fs "configfs" = mp) (h2 : mp ≠ "")
    (h3 : (toPath mp ++ ["usb_gadget"]) ∈ fs.dirs)
    (h4 : readDir fs (toPath mp ++ ["usb_gadget"]) = some entries)
    (h5 : entries.find? (activeChild fs (toPath mp ++ ["usb_gadget"])) = some e) :
    ConfigFSBackend.findGadgetRoot fs = .ok (toPath mp ++ ["usb_gadget"] ++ [e]) := by
  unfold ConfigFSBackend.findGadgetRoot
  rw [h1, if_neg h2, if_neg (by simpa using h3), h4]
  simp only [h5]

theorem children_decomp {fs fs' : FS} {gd : FPath} {kf kd ks : List FPath}
    (hf : fs'.files.map Prod.fst = fs.files.map Prod.fst ++ kf)
    (hd : fs'.dirs = fs.dirs ++ kd)
    (hs : fs'.symlinks.map Prod.fst = fs.symlinks.map Prod.fst ++ ks)
    (hkf : ∀ q ∈ kf, childName gd q = none)
    (hks : ∀ q ∈ ks, childName gd q = none) :
    (allEntryPaths fs').filterMap (childName gd) =
      (fs.files.map Prod.fst).filterMap (childName gd) ++
      ((fs.dirs.filterMap (childName gd) ++ kd.filterMap (childName gd)) ++
        (fs.symlinks.map Prod.fst).filterMap (childName gd)) := by
  unfold allEntryPaths
  rw [hf, hd, hs]
  simp only [List.filterMap_append]
  rw [List.filterMap_eq_nil_iff.mpr hkf, List.filterMap_eq_nil_iff.mpr hks]
  simp

theorem children_orig {fs : FS} {gd : FPath} :
    (allEntryPaths fs).filterMap (childName gd) =
      (fs.files.map Prod.fst).filterMap (childName gd) ++
      ((fs.dirs.filterMap (childName gd)) ++
        (fs.symlinks.map Prod.fst).filterMap (childName gd)) := by
  unfold allEntryPaths
  simp [List.filterMap_append]

theorem ne_of_length_ne {X Y : FPath} (h : X.length ≠ Y.length) : X ≠ Y :=
  fun he => h (congrArg List.length he)

theorem append_single_ne_of_last {X Y : FPath} {s t : String} (h : s ≠ t) :
    X ++ [s] ≠ Y ++ [t] := by
  intro he
  have hl := congrArg List.getLast? he
  rw [List.getLast?_concat, List.getLast?_concat] at hl
  exact h (by simpa using hl)

theorem udcFile_append (gd : FPath) (e : String) :
    udcFile (gd ++ [e]) = gd ++ [e, "UDC"] := by
  simp [udcFile]

theorem lunFile_length (g : FPath) : (lunFile g).length = g.length + 4 := by
  simp [lunFile, lunRoot, msRoot]

theorem msRoot_append (gd : FPath) (e : String) :
    msRoot (gd ++ [e]) = gd ++ [e, "functions", "mass_storage.0"] := by
  simp [msRoot]

theorem childName_gd_lunFile (gd : FPath) (e : String) :
    childName gd (lunFile (gd ++ [e])) = none :=
  childName_none_of_len (by rw [lunFile_length]; simp)

theorem childName_gd_lunAttr (gd : FPath) (e s : String) :
    childName gd (lunRoot (gd ++ [e]) ++ [s]) = none :=
  childName_none_of_len (by simp [lunRoot, msRoot])

theorem childName_gd_udcFile (gd : FPath) (e : String) :
    childName gd (udcFile (gd ++ [e])) = none :=
  childName_none_of_len (by simp [udcFile])

theorem ancestors_msRoot_child {gd : FPath} {e : String} {q : FPath} {x : String}
    (hq : q ∈ ancestorsOf (msRoot (gd ++ [e]))) (hc : childName gd q = some x) :
    x = e := by
  have hqx : q = gd ++ [x] := childName_eq_some_iff.mp hc
  obtain ⟨h1, h2, htake⟩ := mem_ancestorsOf_iff.mp hq
  rw [msRoot_append] at htake
  have hlen : q.length = gd.length + 1 := by rw [hqx]; simp
  rw [hlen] at htake
  have : List.take (gd.length + 1) (gd ++ [e, "functions", "mass_storage.0"]) =
      gd ++ List.take 1 [e, "functions", "mass_storage.0"] := List.take_append 1
  rw [this] at htake
  simp only [List.take_succ_cons, List.take_zero] at htake
  rw [hqx] at htake
  have := List.append_cancel_left htake
  simpa using this

theorem xudc_not_ancestor (gd : FPath) (e x : String) :
    (gd ++ [x, "UDC"]) ∉ ancestorsOf (msRoot (gd ++ [e])) := by
  intro hq
  obtain ⟨h1, h2, htake⟩ := mem_ancestorsOf_iff.mp hq
  rw [msRoot_append] at htake
  have hlen : (gd ++ [x, "UDC"]).length = gd.length + 2 := by simp
  rw [hlen] at htake
  have : List.take (gd.length + 2) (gd ++ [e, "functions", "mass_storage.0"]) =
      gd ++ List.take 2 [e, "functions", "mass_storage.0"] := List.take_append 2
  rw [this] at htake
  have := List.append_cancel_left htake
  simp at this

theorem lun_not_ancestor (gd : FPath) (e : String) :
    lunFile (gd ++ [e]) ∉ ancestorsOf (msRoot (gd ++ [e])) := by
  intro hq
  obtain ⟨h1, h2, htake⟩ := mem_ancestorsOf_iff.mp hq
  rw [lunFile_length] at h2
  rw [msRoot_append] at h2
  simp at h2

theorem lunAttr_not_ancestor (gd : FPath) (e s : String) :
    (lunRoot (gd ++ [e]) ++ [s]) ∉ ancestorsOf (msRoot (gd ++ [e])) := by
  intro hq
  obtain ⟨h1, h2, htake⟩ := mem_ancestorsOf_iff.mp hq
  rw [msRoot_append] at h2
  simp [lunRoot, msRoot] at h2

theorem readFile_congr_at {fs fs' : FS} {p : FPath}
    (hdir : (p ∈ fs'.dirs) ↔ (p ∈ fs.dirs))
    (hl : alookup p fs'.files = alookup p fs.files) :
    readFile fs' p = readFile fs p := by
  unfold readFile
  by_cases h : p ∈ fs.dirs
  · rw [if_pos h, if_pos (hdir.mpr h)]
  · rw [if_neg h, if_neg (fun hh => h (hdir.mp hh)), hl]

theorem setVal_keys_exists {κ α : Type} [DecidableEq κ] (k : κ) (v : α)
    (m : List (κ × α)) :
    ∃ k0, (setVal k v m).map Prod.fst = m.map Prod.fst ++ k0 ∧ ∀ q ∈ k0, q = k := by
  by_cases h : k ∈ m.map Prod.fst
  · exact ⟨[], by rw [setVal_keys_of_mem h, List.append_nil], by simp⟩
  · exact ⟨[k], setVal_keys_of_not_mem h v, by simp⟩

theorem findMountPoint_stable {fs fs' : FS} {mp : String}
    (h : findMountPoint fs "configfs" = mp) (hne : mp ≠ "")
    (hm : alookup mountsPath fs'.files = alookup mountsPath fs.files)
    (hmono : ∀ q, q ∈ fs.dirs → q ∈ fs'.dirs)
    (hnew : ∀ q, q ∈ fs'.dirs → q ∉ fs.dirs →
      q.head? = (toPath mp ++ ["usb_gadget"]).head?) :
    findMountPoint fs' "configfs" = mp := by
  unfold findMountPoint at h ⊢
  rw [hm]
  cases hc : alookup mountsPath fs.files with
  | none => simp only [hc] at h; exact absurd h.symm hne
  | some content =>
    simp only [hc] at h ⊢
    cases hs : scanMounts "configfs" (splitStr content (fun c => c = '\n')) with
    | some found => simp only [hs] at h ⊢; exact h
    | none =>
      simp only [hs, if_pos rfl] at h ⊢
      by_cases hskc : dirExists fs (toPath "/sys/kernel/config")
      · rw [if_pos hskc] at h
        have hskc' : dirExists fs' (toPath "/sys/kernel/config") := by
          unfold dirExists at hskc ⊢
          exact decide_eq_true (hmono _ (of_decide_eq_true hskc))
        rw [if_pos hskc']
        exact h
      · rw [if_neg hskc] at h
        by_cases hcfg : dirExists fs (toPath "/config")
        · rw [if_pos hcfg] at h
          have hmp : mp = "/config" := h.symm
          have hskc' : ¬ dirExists fs' (toPath "/sys/kernel/config") := by
            unfold dirExists at hskc ⊢
            intro hd
            have hd' := of_decide_eq_true hd
            by_cases hin : toPath "/sys/kernel/config" ∈ fs.dirs
            · exact hskc (decide_eq_true hin)
            · have hh := hnew _ hd' hin
              rw [hmp] at hh
              revert hh
              decide
          have hcfg' : dirExists fs' (toPath "/config") := by
            unfold dirExists at hcfg ⊢
            exact decide_eq_true (hmono _ (of_decide_eq_true hcfg))
          rw [if_neg hskc', if_pos hcfg']
          exact h
        · rw [if_neg hcfg] at h
          exact absurd h.symm hne

/-- Stability of `findGadgetRoot` under the writes the backend performs: the
mounts table is untouched, new file and symlink entries are not direct
children of the `usb_gadget` directory, new directories lie on the
mass-storage function's ancestor chain, the chosen gadget's `UDC` attribute
still reads back non-empty, and every other child's `UDC` attribute is
unchanged. -/
theorem ConfigFS_fgr_stable {fs fs' : FS} {mp e : String} {entries : List String}
    (h1 : findMountPoint fs "configfs" = mp) (h2 : mp ≠ "")
    (hgd : (toPath mp ++ ["usb_gadget"]) ∈ fs.dirs)
    (hentries : readDir fs (toPath mp ++ ["usb_gadget"]) = some entries)
    (hfind : entries.find? (activeChild fs (toPath mp ++ ["usb_gadget"])) = some e)
    (hm : alookup mountsPath fs'.files = alookup mountsPath fs.files)
    (hkeys : ∃ kf, fs'.files.map Prod.fst = fs.files.map Prod.fst ++ kf ∧
        ∀ q ∈ kf, childName (toPath mp ++ ["usb_gadget"]) q = none)
    (hdirs : ∃ kd, fs'.dirs = fs.dirs ++ kd ∧
        ∀ q ∈ kd, q ∈ ancestorsOf (msRoot (toPath mp ++ ["usb_gadget"] ++ [e])))
    (hsym : ∃ ks, fs'.symlinks.map Prod.fst = fs.symlinks.map Prod.fst ++ ks ∧
        ∀ q ∈ ks, childName (toPath mp ++ ["usb_gadget"]) q = none)
    (hudc : ((readFile fs' ((toPath mp ++ ["usb_gadget"]) ++ [e, "UDC"])).getD "" ≠ ""))
    (hothers : ∀ x, x ≠ e →
      readFile fs' ((toPath mp ++ ["usb_gadget"]) ++ [x, "UDC"]) =
        readFile fs ((toPath mp ++ ["usb_gadget"]) ++ [x, "UDC"])) :
    ConfigFSBackend.findGadgetRoot fs' = .ok (toPath mp ++ ["usb_gadget"] ++ [e]) := by
  obtain ⟨kf, hkf, hkfn⟩ := hkeys
  obtain ⟨kd, hkd, hkdn⟩ := hdirs
  obtain ⟨ks, hks, hksn⟩ := hsym
  set gd := toPath mp ++ ["usb_gadget"] with hgddef
  -- the mount point is found again
  have hmp' : findMountPoint fs' "configfs" = mp := by
    refine findMountPoint_stable h1 h2 hm ?_ ?_
    · intro q hq
      rw [hkd]
      exact List.mem_append_left _ hq
    · intro q hq hnq
      rw [hkd] at hq
      rcases List.mem_append.mp hq with hq | hq
      · exact absurd hq hnq
      · have hanc := hkdn q hq
        have hh := head?_of_mem_ancestorsOf hanc
        rw [msRoot_append] at hh
        rw [hh, ← hgddef]
        cases hgdc : gd with
        | nil => exact absurd hgdc.symm (by rw [hgddef]; simp)
        | cons a t => simp [hgdc]
  -- the usb_gadget directory still exists
  have hgd' : gd ∈ fs'.dirs := by
    rw [hkd]
    exact List.mem_append_left _ hgd
  -- enumeration of the gadget directory
  have hentries' : readDir fs' gd = some
      ((fs.files.map Prod.fst).filterMap (childName gd) ++
        ((fs.dirs.filterMap (childName gd) ++ kd.filterMap (childName gd)) ++
          (fs.symlinks.map Prod.fst).filterMap (childName gd))) := by
    unfold readDir
    rw [if_pos hgd']
    exact congrArg some (children_decomp hkf hkd hks hkfn hksn)
  -- the old enumeration in decomposed form
  have hentries0 : entries =
      (fs.files.map Prod.fst).filterMap (childName gd) ++
        ((fs.dirs.filterMap (childName gd)) ++
          (fs.symlinks.map Prod.fst).filterMap (childName gd)) := by
    unfold readDir at hentries
    rw [if_pos hgd] at hentries
    have heq := (Option.some.injEq _ _).mp hentries.symm
    rw [heq]
    exact children_orig
  -- the predicate is pointwise unchanged on all listed children
  have hpred : ∀ x, activeChild fs' gd x = activeChild fs gd x ∨
      (x = e ∧ activeChild fs' gd x = true ∧ activeChild fs gd x = true) := by
    intro x
    by_cases hx : x = e
    · right
      subst hx
      refine ⟨rfl, ?_, List.find?_some hfind⟩
      have htrue := List.find?_some hfind
      unfold activeChild at htrue ⊢
      rw [Bool.and_eq_true] at htrue ⊢
      exact ⟨htrue.1, decide_eq_true hudc⟩
    · left
      unfold activeChild
      rw [hothers x hx]
  have hpred' : ∀ x, activeChild fs' gd x = activeChild fs gd x := by
    intro x
    rcases hpred x with h | ⟨_, ha, hb⟩
    · exact h
    · rw [ha, hb]
  -- find? over the new enumeration
  have hfind' :
      ((fs.files.map Prod.fst).filterMap (childName gd) ++
        ((fs.dirs.filterMap (childName gd) ++ kd.filterMap (childName gd)) ++
          (fs.symlinks.map Prod.fst).filterMap (childName gd))).find?
        (activeChild fs' gd) = some e := by
    rw [find?_congr_on (fun x _ => hpred' x)]
    refine find?_insert_mid ?_ ?_
    · rw [← hentries0]
      exact hfind
    · intro x hx
      obtain ⟨q, hq, hcq⟩ := List.mem_filterMap.mp hx
      exact ancestors_msRoot_child (hkdn q hq) hcq
  exact ConfigFS_fgr_intro hmp' h2 hgd' hentries' hfind'

/-! ### Inversion of the mount and unmount procedures -/

theorem ConfigFS_mountBody_inv {fs1 fsF : FS} {g cfg : FPath} {p : String}
    {opts : MountOptions}
    (h : ConfigFSBackend.mountBody fs1 g cfg p opts = (none, fsF)) :
    ∃ fsA fsB fsC fsD fsE,
      (if dirExists fs1 (msRoot g) then some fs1 else mkdirAll fs1 (msRoot g)) = some fsA ∧
      (if pathExists fsA (cfg ++ ["mass_storage.0"]) then some fsA
        else symlinkOp fsA (msRoot g) (cfg ++ ["mass_storage.0"])) = some fsB ∧
      writeFile fsB (lunFile g) "" = some fsC ∧
      writeFile fsC (lunRoot g ++ ["cdrom"]) (if opts.CDROM then "1" else "0") = some fsD ∧
      writeFile fsD (lunRoot g ++ ["ro"]) (if opts.ReadWrite then "0" else "1") = some fsE ∧
      writeFile fsE (lunFile g) p = some fsF ∧
      verifyMountOp fsF (lunFile g) p = none := by
  unfold ConfigFSBackend.mountBody at h
  simp only [] at h
  split at h
  next => exact absurd h (by simp)
  next fsA hA =>
    split at h
    next => exact absurd h (by simp)
    next fsB hB =>
      split at h
      next => exact absurd h (by simp)
      next fsC hC =>
        split at h
        next => exact absurd h (by simp)
        next fsD hD =>
          split at h
          next => exact absurd h (by simp)
          next fsE hE =>
            split at h
            next => exact absurd h (by simp)
            next fsF' hF =>
              split at h
              next => exact absurd h (by simp)
              next hv =>
                have h2 : fsF' = fsF := (Prod.mk.injEq _ _ _ _ ▸ h).2
                subst h2
                exact ⟨fsA, fsB, fsC, fsD, fsE, hA, hB, hC, hD, hE, hF, hv⟩

theorem ConfigFS_mount_inv {fs fs' : FS} {p : String} {opts : MountOptions}
    (h : ConfigFSBackend.Mount fs p opts = (none, fs')) :
    ∃ g cfg udc fs1 fsF,
      ConfigFSBackend.findGadgetRoot fs = .ok g ∧
      ConfigFSBackend.findConfigRoot fs g = .ok cfg ∧
      ConfigFSBackend.getUDC fs g = some udc ∧
      writeFile fs (udcFile g) "" = some fs1 ∧
      ConfigFSBackend.mountBody fs1 g cfg p opts = (none, fsF) ∧
      fs' = ConfigFSBackend.restore fsF g udc := by
  unfold ConfigFSBackend.Mount at h
  split at h
  next => exact absurd h (by simp)
  next g hg =>
    split at h
    next => exact absurd h (by simp)
    next cfg hc =>
      split at h
      next => exact absurd h (by simp)
      next udc hu =>
        split at h
        next => exact absurd h (by simp)
        next fs1 hw =>
          simp only [] at h
          cases hb : ConfigFSBackend.mountBody fs1 g cfg p opts with
          | mk r1 r2 =>
            rw [hb] at h
            have h1 : r1 = none := (Prod.mk.injEq _ _ _ _ ▸ h).1
            have h2 : ConfigFSBackend.restore r2 g udc = fs' := (Prod.mk.injEq _ _ _ _ ▸ h).2
            subst h1
            exact ⟨g, cfg, udc, fs1, r2, hg, hc, hu, hw, hb, h2.symm⟩

theorem ConfigFS_unmount_inv {fs fs' : FS}
    (h : ConfigFSBackend.Unmount fs = (none, fs')) :
    ∃ g udc fs1 fs2,
      ConfigFSBackend.findGadgetRoot fs = .ok g ∧
      ConfigFSBackend.getUDC fs g = some udc ∧
      writeFile fs (udcFile g) "" = some fs1 ∧
      writeFile fs1 (lunFile g) "" = some fs2 ∧
      verifyUnmountOp fs2 (lunFile g) = none ∧
      fs' = ConfigFSBackend.restore fs2 g udc := by
  unfold ConfigFSBackend.Unmount at h
  split at h
  next => exact absurd h (by simp)
  next g hg =>
    split at h
    next => exact absurd h (by simp)
    next udc hu =>
      split at h
      next => exact absurd h (by simp)
      next fs1 hw =>
        simp only [] at h
        cases hb : ConfigFSBackend.unmountBody fs1 g with
        | mk r1 r2 =>
          rw [hb] at h
          have h1 : r1 = none := (Prod.mk.injEq _ _ _ _ ▸ h).1
          have h2 : ConfigFSBackend.restore r2 g udc = fs' := (Prod.mk.injEq _ _ _ _ ▸ h).2
          subst h1
          unfold ConfigFSBackend.unmountBody at hb
          split at hb
          next => exact absurd hb (by simp)
          next fs2 hw2 =>
            split at hb
            next => exact absurd hb (by simp)
            next hv =>
              have h3 : fs2 = r2 := (Prod.mk.injEq _ _ _ _ ▸ hb).2
              subst h3
              exact ⟨g, udc, fs1, fs2, hg, hu, hw, hw2, hv, h2.symm⟩

theorem ConfigFS_fcr_inv {fs : FS} {g cfg : FPath}
    (h : ConfigFSBackend.findConfigRoot fs g = .ok cfg) :
    ∃ c2, cfg = g ++ ["configs", c2] := by
  unfold ConfigFSBackend.findConfigRoot at h
  split at h
  next => exact absurd h (by simp)
  next entries hrd =>
    split at h
    next c2 hf =>
      exact ⟨c2, by cases h; rfl⟩
    next => exact absurd h (by simp)

theorem mem_keys_setVal_self {κ α : Type} [DecidableEq κ] (k : κ) (v : α)
    (m : List (κ × α)) : k ∈ (setVal k v m).map Prod.fst := by
  induction m with
  | nil => simp [setVal]
  | cons hd t ih =>
    obtain ⟨k', v'⟩ := hd
    by_cases hk : k' = k
    · simp [setVal, hk]
    · simp only [setVal, if_neg hk, List.map_cons, List.mem_cons]
      exact Or.inr ih

theorem getUDC_read {fs : FS} {g : FPath} {udc : String}
    (h : ConfigFSBackend.getUDC fs g = some udc) :
    udcFile g ∉ fs.dirs ∧ ∃ c, alookup (udcFile g) fs.files = some c ∧ udc = strTrim c := by
  unfold ConfigFSBackend.getUDC at h
  unfold readFile at h
  split at h
  next hd => exact absurd h (by simp)
  next hd =>
    cases hl : alookup (udcFile g) fs.files with
    | none => rw [hl] at h; exact absurd h (by simp)
    | some c =>
      rw [hl] at h
      exact ⟨hd, c, rfl, by simpa using h.symm⟩

theorem verifyMountOp_none {fs : FS} {lf : FPath} {expected : String}
    (h : verifyMountOp fs lf expected = none) :
    readFile fs lf = some expected := by
  unfold verifyMountOp at h
  split at h
  next => exact absurd h (by simp)
  next c hc =>
    split at h
    next he => rw [hc, he]
    next => exact absurd h (by simp)

theorem verifyUnmountOp_none {fs : FS} {lf : FPath}
    (h : verifyUnmountOp fs lf = none) :
    readFile fs lf = some "" := by
  unfold verifyUnmountOp at h
  split at h
  next => exact absurd h (by simp)
  next c hc =>
    split at h
    next he => rw [hc, he]
    next => exact absurd h (by simp)

theorem readFile_some_not_dir {fs : FS} {p : FPath} {v : String}
    (h : readFile fs p = some v) : p ∉ fs.dirs := by
  unfold readFile at h
  split at h
  next hd => exact absurd h (by simp)
  next hd => exact hd

/-- What a successful ConfigFS `Mount` guarantees about the resulting kernel
state: the image path was accepted verbatim (hence is trim-stable), the same
gadget is discovered again afterwards, the function directory exists, the LUN
file reads back as the image path, the captured controller name is bound
again, and the write-permission state is untouched. -/
theorem ConfigFS_mount_post {fs fs' : FS} {p : String} {opts : MountOptions}
    (h : ConfigFSBackend.Mount fs p opts = (none, fs')) :
    ∃ g, ConfigFSBackend.findGadgetRoot fs = .ok g ∧
    strTrim p = p ∧
    ConfigFSBackend.findGadgetRoot fs' = .ok g ∧
    (msRoot g ∈ fs'.dirs) ∧
    readFile fs' (lunFile g) = some p ∧
    (∃ udc, ConfigFSBackend.getUDC fs g = some udc ∧ udc ≠ "" ∧
      ConfigFSBackend.getUDC fs' g = some udc) ∧
    fs'.unwritable = fs.unwritable ∧
    udcFile g ∉ fs.unwritable ∧ lunFile g ∉ fs.unwritable ∧
    lunFile g ∉ fs'.dirs := by
  obtain ⟨g, cfg, udc, fs1, fsF, hg0, hc, hu, hw, hb, hrest⟩ := ConfigFS_mount_inv h
  refine ⟨g, hg0, ?_⟩
  obtain ⟨mp, e, entries, hmp, hmpne, hgdd, hrd, hfind, hge⟩ := ConfigFS_fgr_inv hg0
  obtain ⟨fsA, fsB, fsC, fsD, fsE, hA, hB, hC, hD, hE, hF, hv⟩ := ConfigFS_mountBody_inv hb
  obtain ⟨c2, hcfg⟩ := ConfigFS_fcr_inv hc
  -- abbreviations
  have hglen : g.length = (toPath mp ++ ["usb_gadget"]).length + 1 := by rw [hge]; simp
  -- til: key disequalities
  have hne_ul : udcFile g ≠ lunFile g :=
    append_single_ne_of_last (X := g) (Y := lunRoot g) (by decide)
  have hne_uc : udcFile g ≠ lunRoot g ++ ["cdrom"] :=
    append_single_ne_of_last (X := g) (Y := lunRoot g) (by decide)
  have hne_ur : udcFile g ≠ lunRoot g ++ ["ro"] :=
    append_single_ne_of_last (X := g) (Y := lunRoot g) (by decide)
  have hne_lc : lunFile g ≠ lunRoot g ++ ["cdrom"] :=
    append_single_ne_of_last (X := lunRoot g) (Y := lunRoot g) (by decide)
  have hne_lr : lunFile g ≠ lunRoot g ++ ["ro"] :=
    append_single_ne_of_last (X := lunRoot g) (Y := lunRoot g) (by decide)
  have hmount_u : udcFile g ≠ mountsPath :=
    append_single_ne_of_last (X := g) (Y := ["proc"]) (by decide)
  have hmount_l : lunFile g ≠ mountsPath :=
    append_single_ne_of_last (X := lunRoot g) (Y := ["proc"]) (by decide)
  have hmount_c : lunRoot g ++ ["cdrom"] ≠ mountsPath :=
    append_single_ne_of_last (X := lunRoot g) (Y := ["proc"]) (by decide)
  have hmount_r : lunRoot g ++ ["ro"] ≠ mountsPath :=
    append_single_ne_of_last (X := lunRoot g) (Y := ["proc"]) (by decide)
  -- getUDC facts
  obtain ⟨hund, cu, hcu, hudctrim⟩ := getUDC_read hu
  have huK_mem : udcFile g ∈ fs.files.map Prod.fst :=
    (alookup_isSome_iff_mem _ _).mp (by rw [hcu]; rfl)
  -- udc is non-empty: the chosen entry's predicate was true
  have hudcne : udc ≠ "" := by
    have htrue := List.find?_some hfind
    unfold activeChild at htrue
    rw [Bool.and_eq_true] at htrue
    have h2 := of_decide_eq_true htrue.2
    have hkey : (toPath mp ++ ["usb_gadget"]) ++ [e, "UDC"] = udcFile g := by
      rw [hge, udcFile_append]
    rw [hkey] at h2
    unfold ConfigFSBackend.getUDC at hu
    rw [hu] at h2
    simpa using h2
  -- unpack the write chain
  obtain ⟨hwuK, hfs1⟩ := writeFile_some_iff.mp hw
  obtain ⟨hwlK, hfsC⟩ := writeFile_some_iff.mp hC
  obtain ⟨hwcK, hfsD⟩ := writeFile_some_iff.mp hD
  obtain ⟨hwrK, hfsE⟩ := writeFile_some_iff.mp hE
  obtain ⟨hwlK2, hfsF⟩ := writeFile_some_iff.mp hF
  -- components of fsA
  have hAcomp : fsA.files = fs1.files ∧ fsA.symlinks = fs1.symlinks ∧
      fsA.unwritable = fs1.unwritable ∧
      (∃ kd, fsA.dirs = fs1.dirs ++ kd ∧ (∀ q ∈ kd, q ∈ ancestorsOf (msRoot g))) ∧
      msRoot g ∈ fsA.dirs := by
    by_cases hd1 : dirExists fs1 (msRoot g)
    · rw [if_pos hd1] at hA
      have : fs1 = fsA := by simpa using hA
      subst this
      refine ⟨rfl, rfl, rfl, ⟨[], by simp, by simp⟩, ?_⟩
      unfold dirExists at hd1
      exact of_decide_eq_true hd1
    · rw [if_neg hd1] at hA
      obtain ⟨hmk, hfsA⟩ := mkdirAll_some_iff.mp hA
      subst hfsA
      refine ⟨rfl, rfl, rfl, ⟨_, rfl, ?_⟩, ?_⟩
      · intro q hq
        exact (List.mem_filter.mp hq).1
      · simp only [List.mem_append]
        right
        rw [List.mem_filter]
        refine ⟨?_, ?_⟩
        · rw [mem_ancestorsOf_iff]
          refine ⟨?_, le_refl _, by rw [List.take_length]⟩
          have hml : (msRoot g).length = g.length + 2 := by simp [msRoot]
          omega
        · unfold dirExists at hd1
          simpa using hd1
  obtain ⟨hAfiles, hAsym, hAunw, ⟨kd, hAdirs, hkdanc⟩, hAms⟩ := hAcomp
  -- components of fsB
  have hBcomp : fsB.files = fsA.files ∧ fsB.dirs = fsA.dirs ∧
      fsB.unwritable = fsA.unwritable ∧
      (∃ ks, fsB.symlinks.map Prod.fst = fsA.symlinks.map Prod.fst ++ ks ∧
        ∀ q ∈ ks, q = cfg ++ ["mass_storage.0"]) := by
    by_cases hp1 : pathExists fsA (cfg ++ ["mass_storage.0"])
    · rw [if_pos hp1] at hB
      have : fsA = fsB := by simpa using hB
      subst this
      exact ⟨rfl, rfl, rfl, [], by simp, by simp⟩
    · rw [if_neg hp1] at hB
      obtain ⟨hlf, hfsB⟩ := symlinkOp_some_iff.mp hB
      subst hfsB
      exact ⟨rfl, rfl, rfl, [cfg ++ ["mass_storage.0"]], by simp, by simp⟩
  obtain ⟨hBfiles, hBdirs, hBunw, ⟨ks, hBsym, hksl⟩⟩ := hBcomp
  -- cumulative component equations for fsF
  have hFfiles : fsF.files =
      setVal (lunFile g) (p ++ "\n")
        (setVal (lunRoot g ++ ["ro"]) ((if opts.ReadWrite then "0" else "1") ++ "\n")
          (setVal (lunRoot g ++ ["cdrom"]) ((if opts.CDROM then "1" else "0") ++ "\n")
            (setVal (lunFile g) ("" ++ "\n")
              (setVal (udcFile g) ("" ++ "\n") fs.files)))) := by
    rw [hfsF, hfsE, hfsD, hfsC, hBfiles, hAfiles, hfs1]
  have hFdirs : fsF.dirs = fs.dirs ++ kd := by
    rw [hfsF, hfsE, hfsD, hfsC]
    simp only []
    rw [hBdirs, hAdirs, hfs1]
  have hFsym : fsF.symlinks.map Prod.fst = fs.symlinks.map Prod.fst ++ ks := by
    rw [hfsF, hfsE, hfsD, hfsC]
    simp only []
    rw [hBsym, hAsym, hfs1]
  have hFunw : fsF.unwritable = fs.unwritable := by
    rw [hfsF, hfsE, hfsD, hfsC]
    simp only []
    rw [hBunw, hAunw, hfs1]
  -- the UDC attribute never becomes a directory
  have hudc_kd : udcFile g ∉ fs.dirs ++ kd := by
    intro hin
    rcases List.mem_append.mp hin with hin | hin
    · exact hund hin
    · have h2 := hkdanc _ hin
      rw [hge, udcFile_append] at h2
      exact xudc_not_ancestor (toPath mp ++ ["usb_gadget"]) e e h2
  -- the restore write succeeds
  have hrestw : writeFile fsF (udcFile g) udc =
      some { fsF with files := setVal (udcFile g) (udc ++ "\n") fsF.files } := by
    apply writeFile_some_iff.mpr
    refine ⟨⟨?_, ?_⟩, rfl⟩
    · rw [hFunw]
      exact hwuK.1
    · rw [hFdirs]
      exact hudc_kd
  have hfs' : fs' = { fsF with files := setVal (udcFile g) (udc ++ "\n") fsF.files } := by
    rw [hrest]
    unfold ConfigFSBackend.restore
    rw [if_pos hudcne, hrestw]
    rfl
  -- final components
  have hfin_files : fs'.files = setVal (udcFile g) (udc ++ "\n") fsF.files := by rw [hfs']
  have hfin_dirs : fs'.dirs = fs.dirs ++ kd := by rw [hfs']; exact hFdirs
  have hfin_sym : fs'.symlinks.map Prod.fst = fs.symlinks.map Prod.fst ++ ks := by
    rw [hfs']; exact hFsym
  have hfin_unw : fs'.unwritable = fs.unwritable := by rw [hfs']; exact hFunw
  -- lookups in the final state
  have hlook_lun : alookup (lunFile g) fs'.files = some (p ++ "\n") := by
    rw [hfin_files, hFfiles]
    rw [alookup_setVal_ne (fun hh => hne_ul hh.symm) _ _]
    exact alookup_setVal_self _ _ _
  have hlook_udc : alookup (udcFile g) fs'.files = some (udc ++ "\n") := by
    rw [hfin_files]
    exact alookup_setVal_self _ _ _
  have hlook_mounts : alookup mountsPath fs'.files = alookup mountsPath fs.files := by
    rw [hfin_files, hFfiles]
    rw [alookup_setVal_ne (fun hh => hmount_u hh.symm),
        alookup_setVal_ne (fun hh => hmount_l hh.symm),
        alookup_setVal_ne (fun hh => hmount_r hh.symm),
        alookup_setVal_ne (fun hh => hmount_c hh.symm),
        alookup_setVal_ne (fun hh => hmount_l hh.symm),
        alookup_setVal_ne (fun hh => hmount_u hh.symm)]
  -- directory facts in the final state
  have hlun_ndir : lunFile g ∉ fs'.dirs := by
    have hrf := verifyMountOp_none hv
    have h1 := readFile_some_not_dir hrf
    rw [hFdirs] at h1
    rw [hfin_dirs]
    exact h1
  have hudc_ndir : udcFile g ∉ fs'.dirs := by
    rw [hfin_dirs]
    exact hudc_kd
  -- p comes back trimmed
  have htrimp : strTrim p = p := by
    have hrf := verifyMountOp_none hv
    unfold readFile at hrf
    rw [if_neg (by rw [hFdirs]; rw [hfin_dirs] at hlun_ndir; exact hlun_ndir)] at hrf
    have : alookup (lunFile g) fsF.files = some (p ++ "\n") := by
      rw [hFfiles]
      exact alookup_setVal_self _ _ _
    rw [this] at hrf
    have := (Option.some.injEq _ _).mp (by simpa using hrf)
    rw [← strTrim_append_newline]
    exact this
  -- final reads
  have hread_lun : readFile fs' (lunFile g) = some p := by
    unfold readFile
    rw [if_neg hlun_ndir, hlook_lun]
    simp only [Option.map_some']
    rw [strTrim_append_newline, htrimp]
  have hread_udc : readFile fs' (udcFile g) = some udc := by
    unfold readFile
    rw [if_neg hudc_ndir, hlook_udc]
    simp only [Option.map_some']
    rw [strTrim_append_newline]
    rw [hudctrim, strTrim_idem]
  -- file keys only grew by LUN attribute files
  have hkeys : ∃ kf, fs'.files.map Prod.fst = fs.files.map Prod.fst ++ kf ∧
      ∀ q ∈ kf, q = lunFile g ∨ q = lunRoot g ++ ["cdrom"] ∨ q = lunRoot g ++ ["ro"] := by
    have K1 : (setVal (udcFile g) ("" ++ "\n") fs.files).map Prod.fst =
        fs.files.map Prod.fst := setVal_keys_of_mem huK_mem _
    obtain ⟨k1, hk1, hk1e⟩ := setVal_keys_exists (lunFile g) ("" ++ "\n")
      (setVal (udcFile g) ("" ++ "\n") fs.files)
    obtain ⟨k2, hk2, hk2e⟩ := setVal_keys_exists (lunRoot g ++ ["cdrom"])
      ((if opts.CDROM then "1" else "0") ++ "\n")
      (setVal (lunFile g) ("" ++ "\n") (setVal (udcFile g) ("" ++ "\n") fs.files))
    obtain ⟨k3, hk3, hk3e⟩ := setVal_keys_exists (lunRoot g ++ ["ro"])
      ((if opts.ReadWrite then "0" else "1") ++ "\n")
      (setVal (lunRoot g ++ ["cdrom"]) ((if opts.CDROM then "1" else "0") ++ "\n")
        (setVal (lunFile g) ("" ++ "\n") (setVal (udcFile g) ("" ++ "\n") fs.files)))
    have hlK_m4 : lunFile g ∈ (setVal (lunRoot g ++ ["ro"])
        ((if opts.ReadWrite then "0" else "1") ++ "\n")
        (setVal (lunRoot g ++ ["cdrom"]) ((if opts.CDROM then "1" else "0") ++ "\n")
          (setVal (lunFile g) ("" ++ "\n")
            (setVal (udcFile g) ("" ++ "\n") fs.files)))).map Prod.fst := by
      rw [hk3, hk2]
      exact List.mem_append_left _ (List.mem_append_left _ (mem_keys_setVal_self _ _ _))
    have K5 : (setVal (lunFile g) (p ++ "\n")
        (setVal (lunRoot g ++ ["ro"]) ((if opts.ReadWrite then "0" else "1") ++ "\n")
          (setVal (lunRoot g ++ ["cdrom"]) ((if opts.CDROM then "1" else "0") ++ "\n")
            (setVal (lunFile g) ("" ++ "\n")
              (setVal (udcFile g) ("" ++ "\n") fs.files))))).map Prod.fst =
        fs.files.map Prod.fst ++ (k1 ++ k2 ++ k3) := by
      rw [setVal_keys_of_mem hlK_m4, hk3, hk2, hk1, K1]
      simp
    have huK_m5 : udcFile g ∈ (setVal (lunFile g) (p ++ "\n")
        (setVal (lunRoot g ++ ["ro"]) ((if opts.ReadWrite then "0" else "1") ++ "\n")
          (setVal (lunRoot g ++ ["cdrom"]) ((if opts.CDROM then "1" else "0") ++ "\n")
            (setVal (lunFile g) ("" ++ "\n")
              (setVal (udcFile g) ("" ++ "\n") fs.files))))).map Prod.fst := by
      rw [K5]
      exact List.mem_append_left _ huK_mem
    have K6 : fs'.files.map Prod.fst = fs.files.map Prod.fst ++ (k1 ++ k2 ++ k3) := by
      rw [hfin_files, hFfiles, setVal_keys_of_mem (by rw [hFfiles] at *; exact huK_m5)]
      rw [← hFfiles, hFfiles, K5]
    refine ⟨k1 ++ k2 ++ k3, K6, ?_⟩
    intro q hq
    rcases List.mem_append.mp hq with hq | hq
    · rcases List.mem_append.mp hq with hq | hq
      · exact Or.inl (hk1e q hq)
      · exact Or.inr (Or.inl (hk2e q hq))
    · exact Or.inr (Or.inr (hk3e q hq))
  -- stability of gadget discovery
  have hfgr' : ConfigFSBackend.findGadgetRoot fs' = .ok g := by
    rw [hge]
    refine ConfigFS_fgr_stable hmp hmpne hgdd hrd hfind hlook_mounts ?_ ?_ ?_ ?_ ?_
    · obtain ⟨kf, hkf, hkfe⟩ := hkeys
      refine ⟨kf, hkf, ?_⟩
      intro q hq
      rcases hkfe q hq with rfl | rfl | rfl
      · rw [hge]; exact childName_gd_lunFile _ _
      · rw [hge]; exact childName_gd_lunAttr _ _ _
      · rw [hge]; exact childName_gd_lunAttr _ _ _
    · refine ⟨kd, by rw [hfin_dirs], ?_⟩
      intro q hq
      rw [← hge]
      exact hkdanc q hq
    · refine ⟨ks, hfin_sym, ?_⟩
      intro q hq
      rw [hksl q hq, hcfg, hge]
      apply childName_none_of_len
      simp
    · have hkey : (toPath mp ++ ["usb_gadget"]) ++ [e, "UDC"] = udcFile g := by
        rw [hge, udcFile_append]
      rw [hkey, hread_udc]
      simpa using hudcne
    · intro x hx
      have hkey : (toPath mp ++ ["usb_gadget"]) ++ [x, "UDC"] ≠ udcFile g := by
        rw [hge, udcFile_append]
        intro heq
        have := (List.append_right_inj _).mp heq
        injection this with h1 _
        exact hx h1
      have hlenx : ((toPath mp ++ ["usb_gadget"]) ++ [x, "UDC"]).length =
          (toPath mp ++ ["usb_gadget"]).length + 2 := by simp
      have hne_xl : (toPath mp ++ ["usb_gadget"]) ++ [x, "UDC"] ≠ lunFile g := by
        apply ne_of_length_ne
        rw [hlenx, lunFile_length, hglen]
        omega
      have hne_xc : (toPath mp ++ ["usb_gadget"]) ++ [x, "UDC"] ≠ lunRoot g ++ ["cdrom"] := by
        apply ne_of_length_ne
        rw [hlenx]
        simp [lunRoot, msRoot, hglen]
      have hne_xr : (toPath mp ++ ["usb_gadget"]) ++ [x, "UDC"] ≠ lunRoot g ++ ["ro"] := by
        apply ne_of_length_ne
        rw [hlenx]
        simp [lunRoot, msRoot, hglen]
      apply readFile_congr_at
      · rw [hfin_dirs]
        constructor
        · intro hin
          rcases List.mem_append.mp hin with hin | hin
          · exact hin
          · have := hkdanc _ hin
            rw [hge] at this
            exact absurd this (xudc_not_ancestor _ e x)
        · intro hin
          exact List.mem_append_left _ hin
      · rw [hfin_files, hFfiles]
        rw [alookup_setVal_ne hkey, alookup_setVal_ne hne_xl, alookup_setVal_ne hne_xr,
            alookup_setVal_ne hne_xc, alookup_setVal_ne hne_xl, alookup_setVal_ne hkey]
  -- assemble
  refine ⟨htrimp, hfgr', ?_, hread_lun, ⟨udc, hu, hudcne, hread_udc⟩, hfin_unw, hwuK.1, ?_, hlun_ndir⟩
  · rw [hfin_dirs, ← hFdirs]
    rw [hfsF, hfsE, hfsD, hfsC]
    simp only []
    rw [hBdirs]
    exact hAms
  · have := hwlK.1
    rw [hBunw, hAunw, hfs1] at this
    exact this

/-- On a state where a gadget is discoverable and the `UDC` and LUN attribute
files are writable (and the LUN path is not a directory), `Unmount` succeeds,
leaves the LUN file empty, rebinds the captured controller, and leaves the
state ready for another `Unmount`. -/
theorem ConfigFS_unmount_total {fs : FS} {g : FPath}
    (hg : ConfigFSBackend.findGadgetRoot fs = .ok g)
    (hwu : udcFile g ∉ fs.unwritable) (hwl : lunFile g ∉ fs.unwritable)
    (hld : lunFile g ∉ fs.dirs) :
    ∃ fs2, ConfigFSBackend.Unmount fs = (none, fs2) ∧
      readFile fs2 (lunFile g) = some "" ∧
      ConfigFSBackend.findGadgetRoot fs2 = .ok g ∧
      fs2.unwritable = fs.unwritable ∧ fs2.dirs = fs.dirs ∧
      (∃ udc, ConfigFSBackend.getUDC fs g = some udc ∧ udc ≠ "" ∧
        ConfigFSBackend.getUDC fs2 g = some udc) := by
  obtain ⟨mp, e, entries, hmp, hmpne, hgdd, hrd, hfind, hge⟩ := ConfigFS_fgr_inv hg
  -- the binding attribute reads back non-empty
  have htrue := List.find?_some hfind
  unfold activeChild at htrue
  rw [Bool.and_eq_true] at htrue
  have hgetne := of_decide_eq_true htrue.2
  have hkey : (toPath mp ++ ["usb_gadget"]) ++ [e, "UDC"] = udcFile g := by
    rw [hge, udcFile_append]
  rw [hkey] at hgetne
  obtain ⟨udc, hudcr, hudcne⟩ : ∃ udc, readFile fs (udcFile g) = some udc ∧ udc ≠ "" := by
    cases hr : readFile fs (udcFile g) with
    | none => rw [hr] at hgetne; simp at hgetne
    | some v => rw [hr] at hgetne; exact ⟨v, rfl, by simpa using hgetne⟩
  have hu : ConfigFSBackend.getUDC fs g = some udc := hudcr
  have hund : udcFile g ∉ fs.dirs := readFile_some_not_dir hudcr
  have hudctrim : strTrim udc = udc := readFile_trimmed hudcr
  have huK_mem : udcFile g ∈ fs.files.map Prod.fst := by
    rw [← alookup_isSome_iff_mem]
    unfold readFile at hudcr
    rw [if_neg hund] at hudcr
    cases hl : alookup (udcFile g) fs.files with
    | none => rw [hl] at hudcr; exact absurd hudcr (by simp)
    | some c => rfl
  -- key disequalities
  have hne_ul : udcFile g ≠ lunFile g :=
    append_single_ne_of_last (X := g) (Y := lunRoot g) (by decide)
  have hmount_u : udcFile g ≠ mountsPath :=
    append_single_ne_of_last (X := g) (Y := ["proc"]) (by decide)
  have hmount_l : lunFile g ≠ mountsPath :=
    append_single_ne_of_last (X := lunRoot g) (Y := ["proc"]) (by decide)
  -- the three write steps
  have hw1 : writeFile fs (udcFile g) "" =
      some { fs with files := setVal (udcFile g) ("" ++ "\n") fs.files } :=
    writeFile_some_iff.mpr ⟨⟨hwu, hund⟩, rfl⟩
  set fs1 : FS := { fs with files := setVal (udcFile g) ("" ++ "\n") fs.files } with hfs1
  have hw2 : writeFile fs1 (lunFile g) "" =
      some { fs1 with files := setVal (lunFile g) ("" ++ "\n") fs1.files } :=
    writeFile_some_iff.mpr ⟨⟨hwl, hld⟩, rfl⟩
  set fsm : FS := { fs1 with files := setVal (lunFile g) ("" ++ "\n") fs1.files } with hfsm
  have hreadm : readFile fsm (lunFile g) = some "" := by
    unfold readFile
    rw [if_neg (by rw [hfsm, hfs1]; exact hld)]
    rw [hfsm]
    simp only []
    rw [alookup_setVal_self]
    simp only [Option.map_some']
    rw [strTrim_append_newline]
    rfl
  have hv : verifyUnmountOp fsm (lunFile g) = none := by
    unfold verifyUnmountOp
    rw [hreadm]
    simp
  have hw3 : writeFile fsm (udcFile g) udc =
      some { fsm with files := setVal (udcFile g) (udc ++ "\n") fsm.files } :=
    writeFile_some_iff.mpr ⟨⟨hwu, hund⟩, rfl⟩
  set fs2 : FS := { fsm with files := setVal (udcFile g) (udc ++ "\n") fsm.files } with hfs2
  have hF2 : fs2.files = setVal (udcFile g) (udc ++ "\n")
      (setVal (lunFile g) ("" ++ "\n") (setVal (udcFile g) ("" ++ "\n") fs.files)) := rfl
  have hD2 : fs2.dirs = fs.dirs := rfl
  have hU2 : fs2.unwritable = fs.unwritable := rfl
  have hS2 : fs2.symlinks = fs.symlinks := rfl
  -- the run of Unmount
  have hrun : ConfigFSBackend.Unmount fs = (none, fs2) := by
    unfold ConfigFSBackend.Unmount
    rw [hg]
    simp only []
    rw [hu]
    simp only []
    rw [hw1]
    simp only []
    unfold ConfigFSBackend.unmountBody
    rw [hw2]
    simp only []
    rw [hv]
    simp only []
    unfold ConfigFSBackend.restore
    rw [if_pos hudcne, hw3]
    rfl
  -- final reads
  have hlun2 : readFile fs2 (lunFile g) = some "" := by
    unfold readFile
    rw [if_neg (by rw [hD2]; exact hld), hF2]
    rw [alookup_setVal_ne (fun hh => hne_ul hh.symm)]
    rw [alookup_setVal_self]
    simp only [Option.map_some']
    rw [strTrim_append_newline]
    rfl
  have hudc2 : readFile fs2 (udcFile g) = some udc := by
    unfold readFile
    rw [if_neg (by rw [hD2]; exact hund), hF2]
    rw [alookup_setVal_self]
    simp only [Option.map_some']
    rw [strTrim_append_newline, hudctrim]
  -- stability of gadget discovery
  have hfgr2 : ConfigFSBackend.findGadgetRoot fs2 = .ok g := by
    rw [hge]
    refine ConfigFS_fgr_stable hmp hmpne hgdd hrd hfind ?_ ?_ ?_ ?_ ?_ ?_
    · rw [hF2]
      rw [alookup_setVal_ne (fun hh => hmount_u hh.symm),
          alookup_setVal_ne (fun hh => hmount_l hh.symm),
          alookup_setVal_ne (fun hh => hmount_u hh.symm)]
    · obtain ⟨k1, hk1, hk1e⟩ := setVal_keys_exists (lunFile g) ("" ++ "\n")
        (setVal (udcFile g) ("" ++ "\n") fs.files)
      refine ⟨k1, ?_, ?_⟩
      · have hm5 : udcFile g ∈ (setVal (lunFile g) ("" ++ "\n")
            (setVal (udcFile g) ("" ++ "\n") fs.files)).map Prod.fst := by
          rw [hk1, setVal_keys_of_mem huK_mem]
          exact List.mem_append_left _ huK_mem
        rw [hF2, setVal_keys_of_mem hm5, hk1, setVal_keys_of_mem huK_mem]
      · intro q hq
        rw [hk1e q hq, hge]
        exact childName_gd_lunFile _ _
    · exact ⟨[], by rw [hD2, List.append_nil], by simp⟩
    · exact ⟨[], by rw [hS2, List.append_nil], by simp⟩
    · rw [hkey, hudc2]
      simpa using hudcne
    · intro x hx
      have hkx : (toPath mp ++ ["usb_gadget"]) ++ [x, "UDC"] ≠ udcFile g := by
        rw [hge, udcFile_append]
        intro heq
        have := (List.append_right_inj _).mp heq
        injection this with h1 _
        exact hx h1
      have hkxl : (toPath mp ++ ["usb_gadget"]) ++ [x, "UDC"] ≠ lunFile g := by
        apply ne_of_length_ne
        rw [lunFile_length, hge]
        simp
      apply readFile_congr_at
      · rw [hD2]
      · rw [hF2]
        rw [alookup_setVal_ne hkx, alookup_setVal_ne hkxl, alookup_setVal_ne hkx]
  exact ⟨fs2, hrun, hlun2, hfgr2, hU2, hD2, udc, hu, hudcne, hudc2⟩

theorem ConfigFS_status_of {fs : FS} {g : FPath} {p : String}
    (hg : ConfigFSBackend.findGadgetRoot fs = .ok g)
    (hms : msRoot g ∈ fs.dirs)
    (hr : readFile fs (lunFile g) = some p) (hp : p ≠ "") :
    (ConfigFSBackend.Status fs).Mounted = true ∧ (ConfigFSBackend.Status fs).File = p := by
  unfold ConfigFSBackend.Status
  rw [hg]
  simp only []
  rw [if_neg (by unfold dirExists; simp [hms])]
  rw [hr]
  simp only []
  rw [if_neg hp]
  exact ⟨rfl, rfl⟩

/-! ### UDC backend: inversion, stability, postconditions -/

theorem UDC_findLun_inv {fs : FS} {lf : FPath}
    (h : UDCBackend.findLunFile fs = .ok lf) :
    ∃ entries e, readDir fs udcDir = some entries ∧
      entries.find? (fun e => fileExists fs (udcLunOf e)) = some e ∧
      lf = udcLunOf e := by
  unfold UDCBackend.findLunFile at h
  split at h
  next => exact absurd h (by simp)
  next entries hrd =>
    split at h
    next e hf => exact ⟨entries, e, hrd, hf, by cases h; rfl⟩
    next => exact absurd h (by simp)

theorem UDC_findLun_stable {fs fs' : FS} {lf : FPath}
    (h : UDCBackend.findLunFile fs = .ok lf)
    (hfk : fs'.files.map Prod.fst = fs.files.map Prod.fst)
    (hd : fs'.dirs = fs.dirs)
    (hs : fs'.symlinks.map Prod.fst = fs.symlinks.map Prod.fst) :
    UDCBackend.findLunFile fs' = .ok lf := by
  obtain ⟨entries, e, hrd, hf, rfl⟩ := UDC_findLun_inv h
  have hall : allEntryPaths fs' = allEntryPaths fs := by
    unfold allEntryPaths
    rw [hfk, hd, hs]
  have hrd' : readDir fs' udcDir = some entries := by
    unfold readDir at hrd ⊢
    rw [hd, hall]
    exact hrd
  have hfe : ∀ q, fileExists fs' q = fileExists fs q := by
    intro q
    unfold fileExists
    rw [hd]
    have : (alookup q fs'.files).isSome = (alookup q fs.files).isSome := by
      by_cases hq : q ∈ fs.files.map Prod.fst
      · rw [(alookup_isSome_iff_mem q fs.files).mpr hq,
          (alookup_isSome_iff_mem q fs'.files).mpr (by rw [hfk]; exact hq)]
      · have h1 : ¬ (alookup q fs.files).isSome = true := fun hh =>
          hq ((alookup_isSome_iff_mem q fs.files).mp hh)
        have h2 : ¬ (alookup q fs'.files).isSome = true := fun hh =>
          hq (by rw [← hfk]; exact (alookup_isSome_iff_mem q fs'.files).mp hh)
        rw [Bool.not_eq_true] at h1 h2
        rw [h1, h2]
    rw [this]
  have hf' : entries.find? (fun e => fileExists fs' (udcLunOf e)) = some e := by
    rw [find?_congr_on (fun x _ => hfe (udcLunOf x))]
    exact hf
  unfold UDCBackend.findLunFile
  simp only [hrd', hf']

theorem UDC_mount_post {fs fs' : FS} {p : String} {opts : MountOptions}
    (h : UDCBackend.Mount fs p opts = (none, fs')) :
    ∃ lf, UDCBackend.findLunFile fs = .ok lf ∧
      strTrim p = p ∧
      UDCBackend.findLunFile fs' = .ok lf ∧
      readFile fs' lf = some p ∧
      fs'.unwritable = fs.unwritable ∧ fs'.dirs = fs.dirs ∧
      lf ∉ fs.unwritable ∧ lf ∉ fs.dirs := by
  unfold UDCBackend.Mount at h
  split at h
  next => exact absurd h (by simp)
  next lf hlf =>
    split at h
    next => exact absurd h (by simp)
    next fs1 hw1 =>
      split at h
      next => exact absurd h (by simp)
      next fs2 hw2 =>
        split at h
        next => exact absurd h (by simp)
        next v hrd =>
          split at h
          next => exact absurd h (by simp)
          next hveq =>
            have hfs2 : fs2 = fs' := (Prod.mk.injEq _ _ _ _ ▸ h).2
            subst hfs2
            obtain ⟨⟨hwu1, hwd1⟩, hfs1⟩ := writeFile_some_iff.mp hw1
            obtain ⟨⟨hwu2, hwd2⟩, hfsm2⟩ := writeFile_some_iff.mp hw2
            -- the LUN file existed before
            have hmem : lf ∈ fs.files.map Prod.fst := by
              obtain ⟨entries, e, hrd0, hf0, rfl⟩ := UDC_findLun_inv hlf
              have := List.find?_some hf0
              unfold fileExists at this
              rw [Bool.and_eq_true] at this
              exact (alookup_isSome_iff_mem _ _).mp this.1
            have hkeys : fs2.files.map Prod.fst = fs.files.map Prod.fst := by
              rw [hfsm2, hfs1]
              simp only []
              rw [setVal_keys_of_mem (by rw [setVal_keys_of_mem hmem]; exact hmem),
                setVal_keys_of_mem hmem]
            have hdirs : fs2.dirs = fs.dirs := by rw [hfsm2, hfs1]
            have hsym : fs2.symlinks.map Prod.fst = fs.symlinks.map Prod.fst := by
              rw [hfsm2, hfs1]
            have hunw : fs2.unwritable = fs.unwritable := by rw [hfsm2, hfs1]
            have hlook : alookup lf fs2.files = some (p ++ "\n") := by
              rw [hfsm2]
              simp only []
              exact alookup_setVal_self _ _ _
            have hread : readFile fs2 lf = some (strTrim p) := by
              unfold readFile
              rw [if_neg (by rw [hdirs]; exact hwd1), hlook]
              simp only [Option.map_some']
              rw [strTrim_append_newline]
            have hptrim : strTrim p = p := by
              rw [hread] at hrd
              have hv : v = strTrim p := by simpa using hrd.symm
              have hvp : v = p := not_not.mp hveq
              rw [← hv, hvp]
            refine ⟨lf, hlf, hptrim, ?_, ?_, hunw, hdirs, hwu1, hwd1⟩
            · exact UDC_findLun_stable hlf hkeys hdirs hsym
            · rw [hread, hptrim]

theorem UDC_unmount_total {fs : FS} {lf : FPath}
    (hlf : UDCBackend.findLunFile fs = .ok lf)
    (hwu : lf ∉ fs.unwritable) (hnd : lf ∉ fs.dirs) :
    ∃ fs2, UDCBackend.Unmount fs = (none, fs2) ∧
      readFile fs2 lf = some "" ∧
      UDCBackend.findLunFile fs2 = .ok lf ∧
      fs2.unwritable = fs.unwritable ∧ fs2.dirs = fs.dirs := by
  have hmem : lf ∈ fs.files.map Prod.fst := by
    obtain ⟨entries, e, hrd0, hf0, rfl⟩ := UDC_findLun_inv hlf
    have := List.find?_some hf0
    unfold fileExists at this
    rw [Bool.and_eq_true] at this
    exact (alookup_isSome_iff_mem _ _).mp this.1
  have hw1 : writeFile fs lf "" =
      some { fs with files := setVal lf ("" ++ "\n") fs.files } :=
    writeFile_some_iff.mpr ⟨⟨hwu, hnd⟩, rfl⟩
  set fs2 : FS := { fs with files := setVal lf ("" ++ "\n") fs.files } with hfs2
  have hread : readFile fs2 lf = some "" := by
    unfold readFile
    rw [if_neg (by exact hnd)]
    have : alookup lf fs2.files = some ("" ++ "\n") := alookup_setVal_self _ _ _
    rw [this]
    simp only [Option.map_some']
    rw [strTrim_append_newline]
    rfl
  have hrun : UDCBackend.Unmount fs = (none, fs2) := by
    unfold UDCBackend.Unmount
    rw [hlf]
    simp only []
    rw [hw1]
    simp only []
    rw [hread]
    simp only []
    rw [if_neg (by simp)]
  refine ⟨fs2, hrun, hread, ?_, rfl, rfl⟩
  exact UDC_findLun_stable hlf (setVal_keys_of_mem hmem _) rfl rfl

theorem UDC_status_of {fs : FS} {lf : FPath} {p : String}
    (hlf : UDCBackend.findLunFile fs = .ok lf)
    (hr : readFile fs lf = some p) (hp : p ≠ "") :
    (UDCBackend.Status fs).Mounted = true ∧ (UDCBackend.Status fs).File = p := by
  unfold UDCBackend.Status
  rw [hlf]
  simp only []
  rw [hr]
  simp only []
  rw [if_neg hp]
  exact ⟨rfl, rfl⟩

/-! ### Sysfs backend: inversion and postconditions -/

theorem Sysfs_mount_inv {fs fs' : FS} {p : String} {opts : MountOptions}
    (h : SysfsBackend.Mount fs p opts = (none, fs')) :
    ∃ fs1 fs2 fs3,
      SysfsBackend.setEnabled fs false = some fs1 ∧
      writeFile fs1 sysfsFile p = some fs2 ∧
      writeFile fs2 sysfsFeatures "mass_storage" = some fs3 ∧
      SysfsBackend.setEnabled fs3 true = some fs' := by
  unfold SysfsBackend.Mount at h
  split at h
  next => exact absurd h (by simp)
  next fs1 h1 =>
    split at h
    next => exact absurd h (by simp)
    next fs2 h2 =>
      split at h
      next => exact absurd h (by simp)
      next fs3 h3 =>
        split at h
        next => exact absurd h (by simp)
        next fs4 h4 =>
          have : fs4 = fs' := (Prod.mk.injEq _ _ _ _ ▸ h).2
          subst this
          exact ⟨fs1, fs2, fs3, h1, h2, h3, h4⟩

theorem Sysfs_mount_post {fs fs' : FS} {p : String} {opts : MountOptions}
    (h : SysfsBackend.Mount fs p opts = (none, fs')) :
    readFile fs' sysfsFile = some (strTrim p) ∧
    fs'.unwritable = fs.unwritable ∧ fs'.dirs = fs.dirs ∧
    sysfsFile ∉ fs.unwritable ∧ sysfsFile ∉ fs.dirs ∧
    sysfsEnable ∉ fs.unwritable ∧ sysfsEnable ∉ fs.dirs ∧
    sysfsFeatures ∉ fs.unwritable ∧ sysfsFeatures ∉ fs.dirs := by
  obtain ⟨fs1, fs2, fs3, h1, h2, h3, h4⟩ := Sysfs_mount_inv h
  obtain ⟨⟨he1, he1d⟩, hfs1⟩ := writeFile_some_iff.mp h1
  obtain ⟨⟨hf2, hf2d⟩, hfs2⟩ := writeFile_some_iff.mp h2
  obtain ⟨⟨hg3, hg3d⟩, hfs3⟩ := writeFile_some_iff.mp h3
  obtain ⟨⟨he4, he4d⟩, hfs4⟩ := writeFile_some_iff.mp h4
  have hne_fe : sysfsFile ≠ sysfsEnable := by decide
  have hne_ff : sysfsFile ≠ sysfsFeatures := by decide
  have hdirs : fs'.dirs = fs.dirs := by rw [hfs4, hfs3, hfs2, hfs1]
  have hunw : fs'.unwritable = fs.unwritable := by rw [hfs4, hfs3, hfs2, hfs1]
  have hlook : alookup sysfsFile fs'.files = some (p ++ "\n") := by
    rw [hfs4, hfs3, hfs2]
    simp only []
    rw [alookup_setVal_ne hne_fe, alookup_setVal_ne hne_ff]
    exact alookup_setVal_self _ _ _
  refine ⟨?_, hunw, hdirs, ?_, ?_, he1, he1d, ?_, ?_⟩
  · unfold readFile
    rw [if_neg (by rw [hdirs]; rw [hfs1] at hf2d; exact hf2d), hlook]
    simp only [Option.map_some']
    rw [strTrim_append_newline]
  · rw [hfs1] at hf2
    exact hf2
  · rw [hfs1] at hf2d
    exact hf2d
  · rw [hfs2, hfs1] at hg3
    exact hg3
  · rw [hfs2, hfs1] at hg3d
    exact hg3d

theorem Sysfs_unmount_total {fs : FS}
    (hwe : sysfsEnable ∉ fs.unwritable) (hde : sysfsEnable ∉ fs.dirs)
    (hwf : sysfsFile ∉ fs.unwritable) (hdf : sysfsFile ∉ fs.dirs)
    (hwg : sysfsFeatures ∉ fs.unwritable) (hdg : sysfsFeatures ∉ fs.dirs) :
    ∃ fs2, SysfsBackend.Unmount fs = (none, fs2) ∧
      readFile fs2 sysfsFile = some "" ∧
      fs2.unwritable = fs.unwritable ∧ fs2.dirs = fs.dirs := by
  have hne_fe : sysfsFile ≠ sysfsEnable := by decide
  have hne_ff : sysfsFile ≠ sysfsFeatures := by decide
  have h1 : SysfsBackend.setEnabled fs false =
      some { fs with files := setVal sysfsEnable ("0" ++ "\n") fs.files } :=
    writeFile_some_iff.mpr ⟨⟨hwe, hde⟩, rfl⟩
  set s1 : FS := { fs with files := setVal sysfsEnable ("0" ++ "\n") fs.files } with hs1
  have h2 : writeFile s1 sysfsFile "" =
      some { s1 with files := setVal sysfsFile ("" ++ "\n") s1.files } :=
    writeFile_some_iff.mpr ⟨⟨hwf, hdf⟩, rfl⟩
  set s2 : FS := { s1 with files := setVal sysfsFile ("" ++ "\n") s1.files } with hs2
  have h3 : writeFile s2 sysfsFeatures "mtp" =
      some { s2 with files := setVal sysfsFeatures ("mtp" ++ "\n") s2.files } :=
    writeFile_some_iff.mpr ⟨⟨hwg, hdg⟩, rfl⟩
  set s3 : FS := { s2 with files := setVal sysfsFeatures ("mtp" ++ "\n") s2.files } with hs3
  have h4 : SysfsBackend.setEnabled s3 true =
      some { s3 with files := setVal sysfsEnable ("1" ++ "\n") s3.files } :=
    writeFile_some_iff.mpr ⟨⟨hwe, hde⟩, rfl⟩
  set s4 : FS := { s3 with files := setVal sysfsEnable ("1" ++ "\n") s3.files } with hs4
  have hrun : SysfsBackend.Unmount fs = (none, s4) := by
    unfold SysfsBackend.Unmount
    rw [h1]
    simp only []
    rw [h2]
    simp only []
    rw [h3]
    simp only []
    rw [h4]
  refine ⟨s4, hrun, ?_, rfl, rfl⟩
  unfold readFile
  rw [if_neg (by exact hdf)]
  have : alookup sysfsFile s4.files = some ("" ++ "\n") := by
    have hF : s4.files = setVal sysfsEnable ("1" ++ "\n")
        (setVal sysfsFeatures ("mtp" ++ "\n")
          (setVal sysfsFile ("" ++ "\n")
            (setVal sysfsEnable ("0" ++ "\n") fs.files))) := rfl
    rw [hF]
    rw [alookup_setVal_ne hne_fe, alookup_setVal_ne hne_ff]
    exact alookup_setVal_self _ _ _
  rw [this]
  simp only [Option.map_some']
  rw [strTrim_append_newline]
  rfl

theorem Sysfs_status_of {fs : FS} {p : String}
    (hr : readFile fs sysfsFile = some p) (hp : p ≠ "") :
    (SysfsBackend.Status fs).Mounted = true ∧ (SysfsBackend.Status fs).File = p := by
  unfold SysfsBackend.Status
  rw [hr]
  simp only []
  rw [if_neg hp]
  exact ⟨rfl, rfl⟩

/-- Decidable equality of `Except` results, for concrete evaluation. -/
instance exceptDecEq {e a : Type} [DecidableEq e] [DecidableEq a] :
    DecidableEq (Except e a)
  | .error x, .error y =>
    if h : x = y then .isTrue (by rw [h]) else
      .isFalse (by intro hh; injection hh; contradiction)
  | .error _, .ok _ => .isFalse (by intro hh; injection hh)
  | .ok _, .error _ => .isFalse (by intro hh; injection hh)
  | .ok x, .ok y =>
    if h : x = y then .isTrue (by rw [h]) else
      .isFalse (by intro hh; injection hh; contradiction)

/-! ### Claim theorems -/

/-- C4: When no backend name is forced, `selectBackend` returns the first
backend in the fixed candidate order ConfigFS, UDC, Sysfs whose `Supported()`
predicate is true; if no candidate's `Supported()` is true, it fails with the
no-backend-found error. -/
theorem C4_selector_order :
    ∀ fs : FS,
      (ConfigFSBackend.Supported fs = true →
        selectBackend fs "" = .ok .configfs) ∧
      (ConfigFSBackend.Supported fs = false → UDCBackend.Supported fs = true →
        selectBackend fs "" = .ok .udc) ∧
      (ConfigFSBackend.Supported fs = false → UDCBackend.Supported fs = false →
        SysfsBackend.Supported fs = true → selectBackend fs "" = .ok .sysfs) ∧
      (ConfigFSBackend.Supported fs = false → UDCBackend.Supported fs = false →
        SysfsBackend.Supported fs = false →
        selectBackend fs "" = .error .noBackendFound) := by
  intro fs
  unfold selectBackend
  rw [if_neg (by simp)]
  unfold backendList
  refine ⟨?_, ?_, ?_, ?_⟩
  · intro h1
    rw [List.find?_cons_of_pos _ (by exact h1)]
  · intro h1 h2
    rw [List.find?_cons_of_neg _ (by simp [backendSupported, h1]),
        List.find?_cons_of_pos _ (by exact h2)]
  · intro h1 h2 h3
    rw [List.find?_cons_of_neg _ (by simp [backendSupported, h1]),
        List.find?_cons_of_neg _ (by simp [backendSupported, h2]),
        List.find?_cons_of_pos _ (by exact h3)]
  · intro h1 h2 h3
    rw [List.find?_cons_of_neg _ (by simp [backendSupported, h1]),
        List.find?_cons_of_neg _ (by simp [backendSupported, h2]),
        List.find?_cons_of_neg _ (by simp [backendSupported, h3])]
    rfl

/-- C5 (supporting theorem for the code bug): configuration loading accepts
the backend name `legacy`, yet the selector has no candidate with that name
(its candidates answer `configfs`, `udc`, `sysfs`), so forcing `legacy`
always fails with the unknown-backend error, on every filesystem state. -/
theorem C5_legacy_unknown :
    validBackendName "legacy" = true ∧
    ∀ fs : FS, selectBackend fs "legacy" = .error (.unknownBackend "legacy") := by
  refine ⟨by decide, ?_⟩
  intro fs
  unfold selectBackend
  rw [if_pos (by decide)]
  rw [show backendList.find? (fun b => backendName b = "legacy") = none from by decide]

/-- C10: In the CLI mount command's non-config path, read-write defaults to
true when neither `--ro` nor `--rw` is given; consequently every invocation
passing `--cdrom` without `--ro` is rejected by the pre-backend
"cannot use -cdrom with -rw" check, and a CD-ROM mount via flags passes the
gate only when `--ro` is explicitly supplied. -/
theorem C10_cdrom_gate :
    ∀ ro rw cdrom : Bool,
      ((ro = false → rw = false → resolveReadWrite ro rw = true) ∧
      (cdrom = true → ro = false →
        mountCmdGate ro rw cdrom = .error .cdromWithRw) ∧
      (∀ r, cdrom = true → mountCmdGate ro rw cdrom = .ok r → ro = true)) := by
  decide

/-- The validation filesystem used for the `validateImage` claims: a denied
system path, an empty file, a directory, an accepted regular file, and a
symlink escaping into a denied directory. -/
def vfs8 : VFS :=
  { files := [("/sdcard/zero.img", 0), ("/sdcard/test.iso", 42),
              ("/system/app/evil.iso", 42)],
    dirs := ["/sdcard/dir"],
    symlinks := [("/sdcard/link.iso", "/system/secret.iso")],
    unreadable := [] }

/-- C8: `validateImage` rejects `/system/app/evil.iso` by deny-list prefix
match, rejects an existing zero-byte regular file, rejects a directory path,
accepts an existing readable non-empty regular file outside the deny list,
and (via `validateSafePath`) rejects a symlink pointing into a denied
directory. -/
theorem C8_validateImage :
    validateImage vfs8 16 "/" "/system/app/evil.iso" =
      some (.error (.dangerous "/system")) ∧
    validateImage vfs8 16 "/" "/sdcard/zero.img" = some (.error .emptyFile) ∧
    validateImage vfs8 16 "/" "/sdcard/dir" = some (.error .isDir) ∧
    validateImage vfs8 16 "/" "/sdcard/test.iso" = some (.ok ()) ∧
    validateImage vfs8 16 "/" "/sdcard/link.iso" =
      some (.error (.dangerous "/system")) := by
  decide

/-- One mount-table line as the amended claim reads it: a line with at least
three whitespace-separated fields, as the pair (first field, second field). -/
def parseMountLine (line : String) : Option (String × String) :=
  match fieldsOf line with
  | a :: b :: _ :: _ => some (a, b)
  | _ => none

/-- `findMountPoint` as the amended claim words it: empty string immediately
when the mounts file cannot be opened; otherwise the second field of the
first mount-table line with at least three fields whose FIRST field equals
`fsType`; for `configfs` only, the two-path fallback when the file was read
but no line matched. -/
def findMountPointRef (fs : FS) (fsType : String) : String :=
  match alookup mountsPath fs.files with
  | none => ""
  | some content =>
    match ((splitStr content (fun c => c = '\n')).filterMap parseMountLine).find?
        (fun e => e.1 = fsType) with
    | some e => e.2
    | none =>
      if fsType = "configfs" then
        if dirExists fs (toPath "/sys/kernel/config") then "/sys/kernel/config"
        else if dirExists fs (toPath "/config") then "/config"
        else ""
      else ""

theorem scanMounts_eq_ref (fsType : String) (lines : List String) :
    scanMounts fsType lines =
      ((lines.filterMap parseMountLine).find? (fun e => e.1 = fsType)).map Prod.snd := by
  induction lines with
  | nil => rfl
  | cons line rest ih =>
    unfold scanMounts
    simp only [List.filterMap_cons]
    cases hf : fieldsOf line with
    | nil => simpa [parseMountLine, hf] using ih
    | cons a t1 =>
      cases t1 with
      | nil => simpa [parseMountLine, hf] using ih
      | cons b t2 =>
        cases t2 with
        | nil => simpa [parseMountLine, hf] using ih
        | cons c t3 =>
          simp only [parseMountLine, hf]
          by_cases hab : a = fsType
          · simp [hab]
          · simp only [if_neg hab]
            rw [List.find?_cons_of_neg _ (by simpa using hab)]
            exact ih

/-- The mount table whose only entry mounts configfs with device field
`none`: its filesystem-type field (third) equals `configfs` and its
mount-point field is `/sys/kernel/config`. -/
def mountsCexFS : FS :=
  { files := [(mountsPath, "none /sys/kernel/config configfs rw 0 0\n")],
    dirs := [], symlinks := [], unwritable := [], mkdirFail := [], linkFail := [] }

/-- C7 counterexample: on a mount table whose matching entry carries the
filesystem type only in the third field (device field `none`, as ext4 or
tmpfs tables commonly do), `findMountPoint "configfs"` returns `""` instead
of the entry's mount-point field `/sys/kernel/config`: the code compares the
FIRST field of each line against the type, not the filesystem-type field. -/
theorem C7_counterexample :
    findMountPoint mountsCexFS "configfs" = "" ∧
    fieldsOf "none /sys/kernel/config configfs rw 0 0" =
      ["none", "/sys/kernel/config", "configfs", "rw", "0", "0"] ∧
    ("" : String) ≠ "/sys/kernel/config" := by
  refine ⟨by decide, by decide, by decide⟩

/-- C7 (amended): for every filesystem-type string and every state,
`findMountPoint` returns the empty string immediately when the mounts file
cannot be opened (the fallback is never consulted then); otherwise it
returns the SECOND field of the first `/proc/mounts` line with at least
three fields whose FIRST field equals the requested type; for `configfs`
only, when the file was read but no line matches, it falls back to
`/sys/kernel/config` then `/config` when one exists as a directory, else
returns the empty string. -/
theorem C7_findMountPoint_ref :
    ∀ (fs : FS) (fsType : String),
      findMountPoint fs fsType = findMountPointRef fs fsType := by
  intro fs fsType
  unfold findMountPoint findMountPointRef
  cases hc : alookup mountsPath fs.files with
  | none => rfl
  | some content =>
    simp only []
    rw [scanMounts_eq_ref]
    cases hf : ((splitStr content (fun c => c = '\n')).filterMap parseMountLine).find?
        (fun e => e.1 = fsType) with
    | none => simp [hf]
    | some e => simp [hf]

/-- The two-link symlink cycle `/a` → `/b` → `/a`. -/
def cycVFS : VFS :=
  { files := [], dirs := [], symlinks := [("/a", "/b"), ("/b", "/a")], unreadable := [] }

/-- A one-hop symlink chain `/c` → `/d`. -/
def chainVFS : VFS :=
  { files := [], dirs := [], symlinks := [("/c", "/d")], unreadable := [] }

theorem cyc_exhausts_both (n : Nat) :
    validateSafePathF cycVFS n "/a" = none ∧ validateSafePathF cycVFS n "/b" = none := by
  induction n with
  | zero => exact ⟨rfl, rfl⟩
  | succ n ih =>
    have hda : dangerousList.find? (fun d => strHasPre "/a" d) = none := by decide
    have hdb : dangerousList.find? (fun d => strHasPre "/b" d) = none := by decide
    have hla : alookup "/a" cycVFS.symlinks = some "/b" := by decide
    have hlb : alookup "/b" cycVFS.symlinks = some "/a" := by decide
    constructor
    · show validateSafePathF cycVFS (n + 1) "/a" = none
      unfold validateSafePathF
      rw [hda]
      simp only [hla]
      rw [if_pos (by decide)]
      exact ih.2
    · show validateSafePathF cycVFS (n + 1) "/b" = none
      unfold validateSafePathF
      rw [hdb]
      simp only [hlb]
      rw [if_pos (by decide)]
      exact ih.1

/-- The symlink-resolution recursion of `validateSafePath`, started at `/a`
on the cyclic state, exhausts every recursion budget: the source function,
which has no depth cap, never returns on this input. -/
def safePathCycleDiverges : Prop :=
  ∀ n : Nat, validateSafePathF cycVFS n "/a" = none

/-- C9 counterexample: on the two-link cycle `/a` → `/b` → `/a`,
`validateSafePath` exceeds every recursion budget — the source recursion
never terminates, so it is not a total function. -/
theorem C9_counterexample : safePathCycleDiverges :=
  fun n => (cyc_exhausts_both n).1

/-- C9 (amended): `validateSafePath` terminates on acyclic symlink chains (a
one-hop chain resolves within budget 2 but not within budget 1, showing each
hop consumes one recursion level), but on a self-referential cyclic chain
the recursion exceeds every budget from both entry points: the function is
partial, not total, exactly as the spec's design note on the missing depth
cap warns. -/
theorem C9_cycle_diverges :
    (∀ n : Nat, validateSafePathF cycVFS n "/b" = none) ∧
    validateSafePathF chainVFS 2 "/c" = some none ∧
    validateSafePathF chainVFS 1 "/c" = none := by
  refine ⟨fun n => (cyc_exhausts_both n).2, by decide, by decide⟩

/-- A state with configfs mounted and an existing but empty `usb_gadget`
directory: no child has a non-empty `UDC` attribute. -/
def cfsNoActive : FS :=
  { files := [(mountsPath, "configfs /cfg configfs rw 0 0\n")],
    dirs := [["cfg"], ["cfg", "usb_gadget"]],
    symlinks := [], unwritable := [], mkdirFail := [], linkFail := [] }

/-- C6 counterexample: in the `src/src/configfs.go` variant, when the
enumeration of `usb_gadget` finds no child with a non-empty `UDC` attribute,
`Mount` fails with the no-active-gadget error instead of synthesizing a `g1`
gadget. -/
theorem C6_counterexample :
    ConfigFSBackend.Mount cfsNoActive "/sdcard/x.iso" ⟨false, false⟩ =
      (some (.findGadget .noActiveGadget), cfsNoActive) := by
  decide

/-- The same no-active-gadget state extended with the platform UDC device
list `<mountPoint>/../devices` holding the controller `udc0`. -/
def altFS : FS :=
  { files := [(mountsPath, "configfs /cfg configfs rw 0 0\n")],
    dirs := [["cfg"], ["cfg", "usb_gadget"], ["devices"], ["devices", "udc0"]],
    symlinks := [], unwritable := [], mkdirFail := [], linkFail := [] }

/-- The result of the part_003 `findGadgetRoot` on `altFS`. -/
def altResult : Except AErr (FPath × FS) := ConfigFSBackend.findGadgetRootAlt altFS

/-- The filesystem state the part_003 `findGadgetRoot` leaves behind. -/
def altOutFS : FS := (altResult.toOption.map Prod.snd).getD altFS

/-- C6 (amended): the part_003 variant of `findGadgetRoot` does behave as the
claim states: with no active gadget it synthesizes `g1` — creating the
gadget directory, vendor/product IDs, the strings subtree, the default
config `c.1` with its configuration string — and binds it to the first entry
of the platform UDC device list, instead of failing. -/
theorem C6_alt_creates_g1 :
    altResult.toOption.map Prod.fst = some ["cfg", "usb_gadget", "g1"] ∧
    readFile altOutFS ["cfg", "usb_gadget", "g1", "UDC"] = some "udc0" ∧
    readFile altOutFS ["cfg", "usb_gadget", "g1", "idVendor"] = some "0x18d1" ∧
    readFile altOutFS ["cfg", "usb_gadget", "g1", "idProduct"] = some "0x4e26" ∧
    readFile altOutFS ["cfg", "usb_gadget", "g1", "strings", "0x409", "manufacturer"] =
      some "Android" ∧
    readFile altOutFS ["cfg", "usb_gadget", "g1", "strings", "0x409", "product"] =
      some "USB Drive" ∧
    readFile altOutFS ["cfg", "usb_gadget", "g1", "strings", "0x409", "serialnumber"] =
      some "123456" ∧
    dirExists altOutFS ["cfg", "usb_gadget", "g1", "configs", "c.1"] = true ∧
    readFile altOutFS
      ["cfg", "usb_gadget", "g1", "configs", "c.1", "strings", "0x409", "configuration"] =
      some "Config 1" := by
  decide

theorem stepA_frame {fs1 fsA : FS} {g : FPath}
    (hA : (if dirExists fs1 (msRoot g) then some fs1 else mkdirAll fs1 (msRoot g)) =
      some fsA) :
    fsA.files = fs1.files ∧ fsA.symlinks = fs1.symlinks ∧
    fsA.unwritable = fs1.unwritable ∧
    ∀ q, q ∈ fsA.dirs → q ∈ fs1.dirs ∨ q ∈ ancestorsOf (msRoot g) := by
  by_cases hd1 : dirExists fs1 (msRoot g)
  · rw [if_pos hd1] at hA
    have : fs1 = fsA := by simpa using hA
    subst this
    exact ⟨rfl, rfl, rfl, fun q hq => Or.inl hq⟩
  · rw [if_neg hd1] at hA
    obtain ⟨-, hfsA⟩ := mkdirAll_some_iff.mp hA
    subst hfsA
    refine ⟨rfl, rfl, rfl, ?_⟩
    intro q hq
    rcases List.mem_append.mp hq with hq | hq
    · exact Or.inl hq
    · exact Or.inr (List.mem_filter.mp hq).1

theorem stepB_frame {fsA fsB : FS} {g cfg : FPath}
    (hB : (if pathExists fsA (cfg ++ ["mass_storage.0"]) then some fsA
      else symlinkOp fsA (msRoot g) (cfg ++ ["mass_storage.0"])) = some fsB) :
    fsB.files = fsA.files ∧ fsB.dirs = fsA.dirs ∧ fsB.unwritable = fsA.unwritable := by
  by_cases hp1 : pathExists fsA (cfg ++ ["mass_storage.0"])
  · rw [if_pos hp1] at hB
    have : fsA = fsB := by simpa using hB
    subst this
    exact ⟨rfl, rfl, rfl⟩
  · rw [if_neg hp1] at hB
    obtain ⟨-, hfsB⟩ := symlinkOp_some_iff.mp hB
    subst hfsB
    exact ⟨rfl, rfl, rfl⟩

/-- Whatever branch `mountBody` takes — error or success — the state it
returns has the same write-permission set, and its directories grew at most
by ancestors of the mass-storage function directory. -/
theorem ConfigFS_mountBody_frame (fs1 : FS) (g cfg : FPath) (p : String)
    (opts : MountOptions) :
    (ConfigFSBackend.mountBody fs1 g cfg p opts).2.unwritable = fs1.unwritable ∧
    ∀ q, q ∈ (ConfigFSBackend.mountBody fs1 g cfg p opts).2.dirs →
      q ∈ fs1.dirs ∨ q ∈ ancestorsOf (msRoot g) := by
  unfold ConfigFSBackend.mountBody
  simp only []
  cases hA : (if dirExists fs1 (msRoot g) then some fs1 else mkdirAll fs1 (msRoot g)) with
  | none => exact ⟨rfl, fun q hq => Or.inl hq⟩
  | some fsA =>
  dsimp only [] at *
  obtain ⟨hAf, hAs, hAu, hAd⟩ := stepA_frame hA
  cases hB : (if pathExists fsA (cfg ++ ["mass_storage.0"]) then some fsA
      else symlinkOp fsA (msRoot g) (cfg ++ ["mass_storage.0"])) with
  | none => exact ⟨hAu, hAd⟩
  | some fsB =>
  dsimp only [] at *
  obtain ⟨hBf, hBd, hBu⟩ := stepB_frame hB
  have hBu' : fsB.unwritable = fs1.unwritable := by rw [hBu, hAu]
  have hBd' : ∀ q, q ∈ fsB.dirs → q ∈ fs1.dirs ∨ q ∈ ancestorsOf (msRoot g) := by
    intro q hq
    rw [hBd] at hq
    exact hAd q hq
  cases hC : writeFile fsB (lunFile g) "" with
  | none => exact ⟨hBu', hBd'⟩
  | some fsC =>
  dsimp only [] at *
  obtain ⟨-, hfsC⟩ := writeFile_some_iff.mp hC
  have hCu : fsC.unwritable = fs1.unwritable := by rw [hfsC]; exact hBu'
  have hCd : ∀ q, q ∈ fsC.dirs → q ∈ fs1.dirs ∨ q ∈ ancestorsOf (msRoot g) := by
    intro q hq
    rw [hfsC] at hq
    exact hBd' q hq
  cases hD : writeFile fsC (lunRoot g ++ ["cdrom"]) (if opts.CDROM then "1" else "0") with
  | none => exact ⟨hCu, hCd⟩
  | some fsD =>
  dsimp only [] at *
  obtain ⟨-, hfsD⟩ := writeFile_some_iff.mp hD
  have hDu : fsD.unwritable = fs1.unwritable := by rw [hfsD]; exact hCu
  have hDd : ∀ q, q ∈ fsD.dirs → q ∈ fs1.dirs ∨ q ∈ ancestorsOf (msRoot g) := by
    intro q hq
    rw [hfsD] at hq
    exact hCd q hq
  cases hE : writeFile fsD (lunRoot g ++ ["ro"]) (if opts.ReadWrite then "0" else "1") with
  | none => exact ⟨hDu, hDd⟩
  | some fsE =>
  dsimp only [] at *
  obtain ⟨-, hfsE⟩ := writeFile_some_iff.mp hE
  have hEu : fsE.unwritable = fs1.unwritable := by rw [hfsE]; exact hDu
  have hEd : ∀ q, q ∈ fsE.dirs → q ∈ fs1.dirs ∨ q ∈ ancestorsOf (msRoot g) := by
    intro q hq
    rw [hfsE] at hq
    exact hDd q hq
  cases hF : writeFile fsE (lunFile g) p with
  | none => exact ⟨hEu, hEd⟩
  | some fsF =>
  dsimp only [] at *
  obtain ⟨-, hfsF⟩ := writeFile_some_iff.mp hF
  have hFu : fsF.unwritable = fs1.unwritable := by rw [hfsF]; exact hEu
  have hFd : ∀ q, q ∈ fsF.dirs → q ∈ fs1.dirs ∨ q ∈ ancestorsOf (msRoot g) := by
    intro q hq
    rw [hfsF] at hq
    exact hEd q hq
  cases hv : verifyMountOp fsF (lunFile g) p with
  | none => exact ⟨hFu, hFd⟩
  | some e => exact ⟨hFu, hFd⟩

/-- The unmount body preserves the write-permission set and the directory
set, on every branch. -/
theorem ConfigFS_unmountBody_frame (fs1 : FS) (g : FPath) :
    (ConfigFSBackend.unmountBody fs1 g).2.unwritable = fs1.unwritable ∧
    (ConfigFSBackend.unmountBody fs1 g).2.dirs = fs1.dirs := by
  unfold ConfigFSBackend.unmountBody
  split
  next => exact ⟨rfl, rfl⟩
  next fs2 hw2 =>
    obtain ⟨-, hfs2⟩ := writeFile_some_iff.mp hw2
    have h1 : fs2.unwritable = fs1.unwritable := by rw [hfs2]
    have h2 : fs2.dirs = fs1.dirs := by rw [hfs2]
    split
    next => exact ⟨h1, h2⟩
    next => exact ⟨h1, h2⟩

/-- After the deferred restore, the binding attribute reads back as the
captured controller name. -/
theorem restore_getUDC {fsB : FS} {g : FPath} {udc : String}
    (hw : udcFile g ∉ fsB.unwritable) (hd : udcFile g ∉ fsB.dirs)
    (hne : udc ≠ "") (htrim : strTrim udc = udc) :
    ConfigFSBackend.getUDC (ConfigFSBackend.restore fsB g udc) g = some udc := by
  unfold ConfigFSBackend.restore
  rw [if_pos hne]
  rw [writeFile_some_iff.mpr ⟨⟨hw, hd⟩, rfl⟩]
  unfold ConfigFSBackend.getUDC readFile
  simp only [Option.getD_some]
  rw [if_neg (by exact hd)]
  rw [alookup_setVal_self]
  simp only [Option.map_some']
  rw [strTrim_append_newline, htrim]

/-- C1: For the ConfigFS backend, whenever the `UDC` binding attribute held a
non-empty controller name before `Mount` was invoked and the disable write
succeeded, the same controller name is bound again when `Mount` returns —
whatever the later steps did; and the same for `Unmount`. -/
theorem C1_udc_restoration :
    (∀ (fs : FS) (p : String) (opts : MountOptions) (g : FPath) (cfg : FPath)
        (udc : String) (fs1 : FS),
      ConfigFSBackend.findGadgetRoot fs = .ok g →
      ConfigFSBackend.findConfigRoot fs g = .ok cfg →
      ConfigFSBackend.getUDC fs g = some udc → udc ≠ "" →
      writeFile fs (udcFile g) "" = some fs1 →
      ConfigFSBackend.getUDC (ConfigFSBackend.Mount fs p opts).2 g = some udc) ∧
    (∀ (fs : FS) (g : FPath) (udc : String) (fs1 : FS),
      ConfigFSBackend.findGadgetRoot fs = .ok g →
      ConfigFSBackend.getUDC fs g = some udc → udc ≠ "" →
      writeFile fs (udcFile g) "" = some fs1 →
      ConfigFSBackend.getUDC (ConfigFSBackend.Unmount fs).2 g = some udc) := by
  constructor
  · intro fs p opts g cfg udc fs1 hg hc hu hne hw
    obtain ⟨mp, e, entries, hmp, hmpne, hgdd, hrd, hfind, hge⟩ := ConfigFS_fgr_inv hg
    obtain ⟨⟨hwu, hwd⟩, hfs1⟩ := writeFile_some_iff.mp hw
    obtain ⟨hbu, hbd⟩ := ConfigFS_mountBody_frame fs1 g cfg p opts
    unfold ConfigFSBackend.Mount
    rw [hg]
    dsimp only []
    rw [hc]
    dsimp only []
    rw [hu]
    dsimp only []
    rw [hw]
    dsimp only []
    apply restore_getUDC
    · rw [hbu, hfs1]
      exact hwu
    · intro hin
      rcases hbd _ hin with hin | hin
      · rw [hfs1] at hin
        exact hwd hin
      · rw [hge, udcFile_append] at hin
        exact xudc_not_ancestor (toPath mp ++ ["usb_gadget"]) e e hin
    · exact hne
    · exact readFile_trimmed hu
  · intro fs g udc fs1 hg hu hne hw
    obtain ⟨mp, e, entries, hmp, hmpne, hgdd, hrd, hfind, hge⟩ := ConfigFS_fgr_inv hg
    obtain ⟨⟨hwu, hwd⟩, hfs1⟩ := writeFile_some_iff.mp hw
    obtain ⟨hbu, hbd⟩ := ConfigFS_unmountBody_frame fs1 g
    unfold ConfigFSBackend.Unmount
    rw [hg]
    dsimp only []
    rw [hu]
    dsimp only []
    rw [hw]
    dsimp only []
    apply restore_getUDC
    · rw [hbu, hfs1]
      exact hwu
    · rw [hbd, hfs1]
      exact hwd
    · exact hne
    · exact readFile_trimmed hu

/-- The sysfs kernel state used for the C2 counterexample: everything
writable, the android0 attribute files present. -/
def sysCexFS : FS :=
  { files := [(sysfsEnable, "1\n"), (sysfsFile, "\n"), (sysfsFeatures, "mtp\n")],
    dirs := [], symlinks := [], unwritable := [], mkdirFail := [], linkFail := [] }

/-- C2 counterexample: the sysfs backend has no readback verification, so
`Mount " x"` succeeds, yet the following `Status` reports the trimmed
kernel value `"x"`, not the argument `" x"`; and `Mount ""` succeeds while
the following `Status` reports not-mounted.  Both violate the claim as
stated. -/
theorem C2_counterexample :
    (SysfsBackend.Mount sysCexFS " x" ⟨false, false⟩).1 = none ∧
    (SysfsBackend.Status (SysfsBackend.Mount sysCexFS " x" ⟨false, false⟩).2).Mounted
      = true ∧
    (SysfsBackend.Status (SysfsBackend.Mount sysCexFS " x" ⟨false, false⟩).2).File
      = "x" ∧
    ("x" : String) ≠ " x" ∧
    (SysfsBackend.Mount sysCexFS "" ⟨false, false⟩).1 = none ∧
    (SysfsBackend.Status (SysfsBackend.Mount sysCexFS "" ⟨false, false⟩).2).Mounted
      = false := by
  decide

/-- C2 (amended): for each of the three backends, for every non-empty,
whitespace-trimmed image path `p` and every options value, a successful
`Mount p opts` is followed by a `Status` (on the unchanged resulting state)
reporting mounted with exactly the file `p`. -/
theorem C2_status_after_mount :
    (∀ (fs fs' : FS) (p : String) (opts : MountOptions),
      strTrim p = p → p ≠ "" →
      ConfigFSBackend.Mount fs p opts = (none, fs') →
      (ConfigFSBackend.Status fs').Mounted = true ∧
        (ConfigFSBackend.Status fs').File = p) ∧
    (∀ (fs fs' : FS) (p : String) (opts : MountOptions),
      strTrim p = p → p ≠ "" →
      UDCBackend.Mount fs p opts = (none, fs') →
      (UDCBackend.Status fs').Mounted = true ∧ (UDCBackend.Status fs').File = p) ∧
    (∀ (fs fs' : FS) (p : String) (opts : MountOptions),
      strTrim p = p → p ≠ "" →
      SysfsBackend.Mount fs p opts = (none, fs') →
      (SysfsBackend.Status fs').Mounted = true ∧ (SysfsBackend.Status fs').File = p) := by
  refine ⟨?_, ?_, ?_⟩
  · intro fs fs' p opts htrim hne h
    obtain ⟨g, hg, -, hfgr', hms, hlun', -, -, -, -, -⟩ := ConfigFS_mount_post h
    exact ConfigFS_status_of hfgr' hms hlun' hne
  · intro fs fs' p opts htrim hne h
    obtain ⟨lf, hlf, -, hlf', hread', -, -, -, -⟩ := UDC_mount_post h
    exact UDC_status_of hlf' hread' hne
  · intro fs fs' p opts htrim hne h
    obtain ⟨hread', -, -, -, -, -, -, -, -⟩ := Sysfs_mount_post h
    rw [htrim] at hread'
    exact Sysfs_status_of hread' hne

/-- C3: for each backend, after a successful `Mount p opts`, a successful
`Unmount` leaves the LUN file reading back empty, and a second `Unmount` in
that state succeeds and leaves it empty as well. -/
theorem C3_unmount_idempotent :
    (∀ (fs fs' fs2 : FS) (p : String) (opts : MountOptions) (g : FPath),
      ConfigFSBackend.findGadgetRoot fs = .ok g →
      ConfigFSBackend.Mount fs p opts = (none, fs') →
      ConfigFSBackend.Unmount fs' = (none, fs2) →
      readFile fs2 (lunFile g) = some "" ∧
        ∃ fs3, ConfigFSBackend.Unmount fs2 = (none, fs3) ∧
          readFile fs3 (lunFile g) = some "") ∧
    (∀ (fs fs' fs2 : FS) (p : String) (opts : MountOptions) (lf : FPath),
      UDCBackend.findLunFile fs = .ok lf →
      UDCBackend.Mount fs p opts = (none, fs') →
      UDCBackend.Unmount fs' = (none, fs2) →
      readFile fs2 lf = some "" ∧
        ∃ fs3, UDCBackend.Unmount fs2 = (none, fs3) ∧ readFile fs3 lf = some "") ∧
    (∀ (fs fs' fs2 : FS) (p : String) (opts : MountOptions),
      SysfsBackend.Mount fs p opts = (none, fs') →
      SysfsBackend.Unmount fs' = (none, fs2) →
      readFile fs2 sysfsFile = some "" ∧
        ∃ fs3, SysfsBackend.Unmount fs2 = (none, fs3) ∧
          readFile fs3 sysfsFile = some "") := by
  refine ⟨?_, ?_, ?_⟩
  · intro fs fs' fs2 p opts g hg hm hun
    obtain ⟨g0, hg0, -, hfgr', hms, hlun', -, hunw, hwu, hwl, hld⟩ := ConfigFS_mount_post hm
    have hgg : g0 = g := by
      rw [hg0] at hg
      exact (Except.ok.injEq _ _ ▸ hg)
    subst hgg
    obtain ⟨fs2', hrun', hread2, hfgr2, hunw2, hdirs2, -⟩ :=
      ConfigFS_unmount_total hfgr' (by rw [hunw]; exact hwu) (by rw [hunw]; exact hwl) hld
    have heq : fs2' = fs2 := by
      rw [hun] at hrun'
      exact ((Prod.mk.injEq _ _ _ _ ▸ hrun').2).symm
    subst heq
    refine ⟨hread2, ?_⟩
    obtain ⟨fs3, hrun3, hread3, -, -, -, -⟩ :=
      ConfigFS_unmount_total hfgr2
        (by rw [hunw2, hunw]; exact hwu)
        (by rw [hunw2, hunw]; exact hwl)
        (by rw [hdirs2]; exact hld)
    exact ⟨fs3, hrun3, hread3⟩
  · intro fs fs' fs2 p opts lf hlf hm hun
    obtain ⟨lf0, hlf0, -, hlf', hread', hunw, hdirs, hwu, hnd⟩ := UDC_mount_post hm
    have hll : lf0 = lf := by
      rw [hlf0] at hlf
      exact (Except.ok.injEq _ _ ▸ hlf)
    subst hll
    obtain ⟨fs2', hrun', hread2, hlf2, hunw2, hdirs2⟩ :=
      UDC_unmount_total hlf' (by rw [hunw]; exact hwu) (by rw [hdirs]; exact hnd)
    have heq : fs2' = fs2 := by
      rw [hun] at hrun'
      exact ((Prod.mk.injEq _ _ _ _ ▸ hrun').2).symm
    subst heq
    refine ⟨hread2, ?_⟩
    obtain ⟨fs3, hrun3, hread3, -, -⟩ :=
      UDC_unmount_total hlf2
        (by rw [hunw2, hunw]; exact hwu)
        (by rw [hdirs2, hdirs]; exact hnd)
    exact ⟨fs3, hrun3, hread3⟩
  · intro fs fs' fs2 p opts hm hun
    obtain ⟨-, hunw, hdirs, hwf, hdf, hwe, hde, hwg, hdg⟩ := Sysfs_mount_post hm
    obtain ⟨fs2', hrun', hread2, hunw2, hdirs2⟩ :=
      Sysfs_unmount_total (by rw [hunw]; exact hwe) (by rw [hdirs]; exact hde)
        (by rw [hunw]; exact hwf) (by rw [hdirs]; exact hdf)
        (by rw [hunw]; exact hwg) (by rw [hdirs]; exact hdg)
    have heq : fs2' = fs2 := by
      rw [hun] at hrun'
      exact ((Prod.mk.injEq _ _ _ _ ▸ hrun').2).symm
    subst heq
    refine ⟨hread2, ?_⟩
    obtain ⟨fs3, hrun3, hread3, -, -⟩ :=
      Sysfs_unmount_total (by rw [hunw2, hunw]; exact hwe) (by rw [hdirs2, hdirs]; exact hde)
        (by rw [hunw2, hunw]; exact hwf) (by rw [hdirs2, hdirs]; exact hdf)
        (by rw [hunw2, hunw]; exact hwg) (by rw [hdirs2, hdirs]; exact hdg)
    exact ⟨fs3, hrun3, hread3⟩
